import Mathlib

/-!
Verification of the FAT32 filesystem layer and SD block driver of the
GC9A01-XIAO-RP2040 repository, against its natural-language specification.

The development shallowly embeds the C++ sources (FAT32.cpp, SDCard.cpp)
into Lean.  Machine integers are modelled as Nat with explicit reductions
modulo 2^8 / 2^16 / 2^28 / 2^32 at the points where the C code truncates;
a 512-byte sector is a function from byte offset to byte value; the block
device is a partial map from LBA to sector together with a per-LBA write
success flag.  I/O that can fail in the source is modelled with Option /
explicit success booleans.  Unbounded while loops of the source (cluster
chain walks) are modelled with an explicit fuel parameter.
-/

/-- A 512-byte sector, as a map from byte offset to byte value. -/
abbrev Sector := Nat → Nat

/-- Byte read, normalised to an 8-bit value as the C uint8_t type does. -/
def byteAt (sec : Sector) (i : Nat) : Nat := sec i % 256

/-- Little-endian 32-bit read, as the byte-assembly in FAT32::fat_entry. -/
def le32 (sec : Sector) (i : Nat) : Nat :=
  byteAt sec i + 256 * byteAt sec (i + 1) + 65536 * byteAt sec (i + 2) +
    16777216 * byteAt sec (i + 3)

/-- Little-endian 16-bit read (for the 16-bit directory entry fields). -/
def le16 (sec : Sector) (i : Nat) : Nat := byteAt sec i + 256 * byteAt sec (i + 1)

/-- Pointwise update of one byte of a sector. -/
def updF (sec : Sector) (i v : Nat) : Sector := fun j => if j = i then v else sec j

/-- Write a 32-bit value little-endian, byte by byte, as fat_entry does. -/
def writeLE32 (sec : Sector) (i v : Nat) : Sector :=
  updF (updF (updF (updF sec i (v % 256)) (i + 1) (v / 256 % 256))
    (i + 2) (v / 65536 % 256)) (i + 3) (v / 16777216 % 256)

/-- Write a 16-bit value little-endian at a byte offset. -/
def writeLE16 (sec : Sector) (i v : Nat) : Sector :=
  updF (updF sec i (v % 256)) (i + 1) (v / 256 % 256)

/-- Overlay of a byte list onto the front-aligned bytes of a sector, the
model of memcpy(read_buffer, p, chunk) at offset 0. -/
def writeBytes (sec : Sector) (data : List Nat) : Sector :=
  fun j => if j < data.length then data.getD j 0 % 256 else sec j

/-- The all-zero sector used when the driver zeroes a fresh cluster. -/
def zeroSec : Sector := fun _ => 0

/-- The raw block device: a partial map from LBA to sector content plus a
per-LBA write success flag (SDCard::read_block / write_block outcomes). -/
structure Disk where
  readF : Nat → Option Sector
  writeOk : Nat → Bool

/-- Model of SDCard::write_block as seen by the filesystem: on success the
sector content is replaced, on failure the medium is unchanged. -/
def Disk.store (d : Disk) (lba : Nat) (sec : Sector) : Bool × Disk :=
  if d.writeOk lba then
    (true, { readF := fun l => if l = lba then some sec else d.readF l,
             writeOk := d.writeOk })
  else (false, d)

/-- ReadHandler structure of FAT32.h. -/
structure ReadHandler where
  Dir_Entry : Nat
  File_Size : Nat
  FAT_Entry : Nat
  SectorOffset : Nat
deriving DecidableEq

/-- Default-constructed ReadHandler (all zero). -/
def ReadHandler.init : ReadHandler := ⟨0, 0, 0, 0⟩

/-- WriteHandler structure of FAT32.h (the unused name fields are omitted). -/
structure WriteHandler where
  Dir_Entry : Nat
  File_Size : Nat
  BaseFatEntry : Nat
  CurrentFatEntry : Nat
  ClusterIndex : Nat
  SectorIndex : Nat
deriving DecidableEq

/-- Default-constructed WriteHandler (all zero). -/
def WriteHandler.init : WriteHandler := ⟨0, 0, 0, 0, 0, 0⟩

/-- The FAT32 driver object: volume geometry fields, the one-sector FAT
cache, the two file handlers and the static LFN assembly index of
fat_filename_parser.  Fields hold the stored machine values of the
corresponding C++ members. -/
structure FAT32St where
  disk : Disk
  fsInit : Bool
  sector_size : Nat
  cluster_size : Nat
  fat_base : Nat
  data_base : Nat
  sectors_per_fat : Nat
  sectors_in_partition : Nat
  first_data_sector : Nat
  last_cluster : Nat
  root_dir_first_cluster : Nat
  current_dir_cluster : Nat
  fat_cache_sector : Nat
  fat_cache_valid : Bool
  fat_cache : Sector
  read_handler : ReadHandler
  write_handler : WriteHandler
  lfn_index : Nat

namespace FAT_Config

def FILE_CLEAR : Nat := 0x00
def FILE_ERASED : Nat := 0xE5
def AT_ARCHIVE : Nat := 0x20
def AT_LFN : Nat := 0x0F
def CLUSTER_FREE : Nat := 0x00000000
def SECTOR_SIZE : Nat := 512

end FAT_Config

namespace FAT32_Cluster

def FREE : Nat := 0x00000000
def BAD : Nat := 0x0FFFFF7
def EOC_MIN : Nat := 0x0FFFFFF8

end FAT32_Cluster

/-- The invalid-cluster sentinel 0xFFFFFFFF returned by fat_entry. -/
def INVALID_CLUSTER : Nat := 0xFFFFFFFF

/-- Model of FAT32::fat_entry (FAT32.cpp lines 986-1052): reads, and
optionally writes through, the 32-bit FAT entry of a cluster via the
single-sector FAT cache. -/
def fat_entry (s : FAT32St) (cluster_num fat_value : Nat) (write_entry : Bool) :
    Nat × FAT32St :=
  if s.fsInit = false ∨ cluster_num < 2 then (INVALID_CLUSTER, s) else
  let fat_offset := cluster_num * 4 % 4294967296
  let fat_sector_offset := fat_offset / s.sector_size
  let entry_offset := fat_offset % s.sector_size
  let fat_lba := s.fat_base + fat_sector_offset
  let loaded : Option FAT32St :=
    if s.fat_cache_valid = false ∨ s.fat_cache_sector ≠ fat_lba then
      match s.disk.readF fat_lba with
      | none => none
      | some sec =>
          some { s with fat_cache := sec, fat_cache_sector := fat_lba,
                        fat_cache_valid := true }
    else some s
  match loaded with
  | none => (INVALID_CLUSTER, { s with fat_cache_valid := false })
  | some s1 =>
    let raw := le32 s1.fat_cache entry_offset
    let current := raw % 268435456
    if write_entry then
      let masked := raw / 268435456 * 268435456 + fat_value % 268435456
      let cache2 := writeLE32 s1.fat_cache entry_offset masked
      let s2 := { s1 with fat_cache := cache2 }
      match Disk.store s2.disk fat_lba cache2 with
      | (true, d2) => (masked % 268435456, { s2 with disk := d2 })
      | (false, d2) =>
          (INVALID_CLUSTER, { s2 with disk := d2, fat_cache_valid := false })
    else (current, s1)

/-- The masked FAT value of a cluster as stored on the medium right now,
bypassing the cache (used to state on-disk postconditions). -/
def fatValOnDisk (s : FAT32St) (cluster : Nat) : Option Nat :=
  match s.disk.readF (s.fat_base + cluster * 4 % 4294967296 / s.sector_size) with
  | none => none
  | some sec => some (le32 sec (cluster * 4 % 4294967296 % s.sector_size) % 268435456)

/-- Linear scan helper of fat_search_available_cluster: first cluster in the
given list whose FAT entry reads as FREE, returned truncated to 16 bits. -/
def fat_scan_free : FAT32St → List Nat → Option Nat × FAT32St
  | s, [] => (none, s)
  | s, c :: rest =>
    let p := fat_entry s c 0 false
    if p.1 = FAT_Config.CLUSTER_FREE then (some (c % 65536), p.2)
    else fat_scan_free p.2 rest

/-- Model of FAT32::fat_search_available_cluster (FAT32.cpp lines 971-984):
linear scan from the hint to last_cluster, then wrap-around from 2.  The
hint parameter is a uint16_t, the return value is cast to uint16_t. -/
def fat_search_available_cluster (s : FAT32St) (current_cluster : Nat) :
    Nat × FAT32St :=
  let cc := current_cluster % 65536
  let start := if 2 ≤ cc then cc else 2
  match fat_scan_free s (List.range' start (s.last_cluster - start)) with
  | (some r, s1) => (r, s1)
  | (none, s1) =>
    match fat_scan_free s1 (List.range' 2 (start - 2)) with
    | (some r, s2) => (r, s2)
    | (none, s2) => (0, s2)

/-- Model of FAT32::count_free_clusters (FAT32.cpp lines 1223-1255): counts
FAT entries whose masked value is FREE over all sectors_per_fat FAT sectors;
unreadable sectors are skipped. -/
def count_free_clusters (s : FAT32St) : Nat :=
  if s.fsInit = false then 0 else
  ((List.range' s.fat_base s.sectors_per_fat).map (fun lba =>
    match s.disk.readF lba with
    | none => 0
    | some sec =>
        ((List.range (s.sector_size / 4)).filter
          (fun e => le32 sec (4 * e) % 268435456 = 0)).length)).sum

/-- Model of FAT32::get_total_space (FAT32.cpp lines 1203-1213). -/
def get_total_space (s : FAT32St) : Nat :=
  if s.fsInit = false ∨ s.cluster_size = 0 ∨ s.sector_size = 0 then 0 else
  let data_sectors :=
    if s.first_data_sector < s.sectors_in_partition then
      s.sectors_in_partition - s.first_data_sector
    else 0
  let total_clusters := data_sectors / s.cluster_size
  total_clusters * s.cluster_size * s.sector_size % 4294967296

/-- The last_cluster computation of FAT32::read_master_block (line 151):
total_clusters + 1 stored into the uint16_t member. -/
def last_cluster_of_total (total_clusters : Nat) : Nat := (total_clusters + 1) % 65536

/-- Model of FAT32::file_read (FAT32.cpp lines 799-853) on the internal read
handler: returns the number of bytes read, the bytes themselves, and the
updated driver state. -/
def file_read (s : FAT32St) : Nat × List Nat × FAT32St :=
  if s.fsInit = false then (0, [], s) else
  let h := s.read_handler
  if h.File_Size = 0 then (0, [], s) else
  let bytes_to_read :=
    if h.File_Size < FAT_Config.SECTOR_SIZE then h.File_Size
    else FAT_Config.SECTOR_SIZE
  let cluster_sector :=
    (s.data_base + (h.FAT_Entry + 4294967296 - 2) % 4294967296 * s.cluster_size +
      h.SectorOffset) % 4294967296
  match s.disk.readF cluster_sector with
  | none => (0, [], s)
  | some sec =>
    let bytes := (List.range bytes_to_read).map (fun i => byteAt sec i)
    let h1 : ReadHandler :=
      { h with File_Size := h.File_Size - bytes_to_read,
               SectorOffset := h.SectorOffset + 1 }
    if s.cluster_size ≤ h1.SectorOffset then
      let p := fat_entry { s with read_handler := h1 } h.FAT_Entry 0 false
      let h2 : ReadHandler := { h1 with SectorOffset := 0, FAT_Entry := p.1 }
      let h3 :=
        if FAT32_Cluster.EOC_MIN ≤ h2.FAT_Entry ∨ h2.FAT_Entry < 2 then
          { h2 with File_Size := 0 }
        else h2
      (bytes_to_read, bytes, { p.2 with read_handler := h3 })
    else (bytes_to_read, bytes, { s with read_handler := h1 })

/-- ASCII toupper on an unsigned-char value (FAT_Utils comparisons). -/
def upAscii (c : Nat) : Nat :=
  let c0 := c % 256
  if 97 ≤ c0 ∧ c0 ≤ 122 then c0 - 32 else c0

/-- Model of FAT_Utils::iequals on NUL-free byte strings. -/
def iequals (a b : List Nat) : Bool := a.map upAscii == b.map upAscii

/-- strtok_r tokenization on the slash character: splits a byte string on
code 47, never yielding empty tokens. -/
def tokenize (l : List Nat) : List (List Nat) :=
  (l.foldr (fun c acc =>
    if c = 47 then [] :: acc
    else match acc with
      | [] => [[c]]
      | t :: ts => (c :: t) :: ts) []).filter (fun t => t ≠ [])

/-- strrchr-based basename used by rename_file: the suffix after the last
slash. -/
def basenameOf (l : List Nat) : List Nat := (l.reverse.takeWhile (fun c => c ≠ 47)).reverse

/-- Characters FAT_Utils::to_dos_8_3 rejects. -/
def dosInvalidChars : List Nat :=
  [34, 42, 47, 58, 60, 62, 63, 92, 124, 43, 44, 46, 32, 59, 61, 91, 93]

/-- Copy loop of to_dos_8_3: walks the characters, skipping spaces, failing
on a forbidden character, keeping at most maxLen characters. -/
def dosCopy : List Nat → Nat → List Nat → Option (List Nat)
  | [], _, acc => some acc.reverse
  | c :: rest, maxLen, acc =>
    if acc.length < maxLen then
      if c % 256 = 32 then dosCopy rest maxLen acc
      else if (c % 256) ∈ dosInvalidChars then none
      else dosCopy rest maxLen (upAscii c :: acc)
    else some acc.reverse

/-- Model of FAT_Utils::to_dos_8_3 (FAT32.cpp lines 1701-1753): splits at
the first dot, uppercases, truncates base to 8 and extension to 3
characters, space-pads to 11 bytes; forbidden characters fail. -/
def to_dos_8_3 (name : List Nat) : Option (List Nat) :=
  let base_part := name.takeWhile (fun c => c ≠ 46)
  let has_dot := name.length ≠ base_part.length
  let ext_part := if has_dot then (name.drop (base_part.length + 1)) else []
  match dosCopy base_part 8 [] with
  | none => none
  | some b =>
    match dosCopy ext_part 3 [] with
    | none => none
    | some e =>
      some ((b ++ List.replicate (8 - b.length) 32) ++
            (e ++ List.replicate (3 - e.length) 32))

/-- FileEntryType enum of FAT32.h. -/
inductive FileEntryType where
  | F_File
  | F_Directory
  | LongFileNameOK
  | LongFileNameNOK
  | F_Error
deriving DecidableEq

/-- FileFunction enum of FAT32.h. -/
inductive FileFunction where
  | READ
  | CREATE
  | MODIFY
  | DELETE
  | OVERWRITE
deriving DecidableEq

/-- FAT_ErrorCode enum of FAT32.h. -/
inductive FAT_ErrorCode where
  | ERROR_IDLE
  | FILE_FOUND
  | FILE_NOT_FOUND
  | FILE_CREATE_OK
  | NO_FILE_ENTRY_AVAILABLE
  | NO_FAT_ENTRY_AVAILABLE
  | NO_MORE_FREE_CLUSTER
  | ERROR_READ_FAIL
deriving DecidableEq

open FileEntryType FileFunction FAT_ErrorCode

/-- The fixed UTF-16 character byte positions of an LFN entry
(FAT_Utils::LFN_CHAR_POSITIONS). -/
def LFN_CHAR_POSITIONS : List Nat := [1, 3, 5, 7, 9, 14, 16, 18, 20, 22, 24, 28, 30]

/-- Character extraction loop of the LFN branch of fat_filename_parser:
walks positions i = 0..12, stopping at a 0x0000 code unit (writing a NUL)
or at 0xFFFF padding, otherwise copying the low byte. -/
def lfnExtract (ent : Sector) (lfnIdx : Nat) : Nat → List Nat → Sector → Sector
  | _, [], buf => buf
  | i, pos :: rest, buf =>
    let lo := byteAt ent pos
    let hi := byteAt ent (pos + 1)
    if lo = 0x00 ∧ hi = 0x00 then updF buf (lfnIdx + i) 0
    else if lo = 0xFF ∧ hi = 0xFF then buf
    else lfnExtract ent lfnIdx (i + 1) rest (updF buf (lfnIdx + i) lo)

/-- The 8.3 base-name copy loop: FileName bytes up to the first space,
at most 8. -/
def dosBaseChars (ent : Sector) : List Nat :=
  ((List.range 8).map (fun k => byteAt ent k)).takeWhile (fun c => c ≠ 32)

/-- The extension copy loop of the _File branch: all three Extension
bytes (the source copies them unconditionally). -/
def dosExtChars (ent : Sector) : List Nat :=
  [byteAt ent 8, byteAt ent 9, byteAt ent 10]

/-- Write a byte list into a character buffer starting at an offset. -/
def bufWrite (buf : Sector) (i : Nat) : List Nat → Sector
  | [] => buf
  | c :: rest => bufWrite (updF buf i c) (i + 1) rest

/-- Model of FAT32::fat_filename_parser (FAT32.cpp lines 328-398).  The
static lfn_index is passed and returned explicitly; the caller-provided
filename buffer is threaded through.  Entries with byte 0 equal to
FILE_CLEAR or FILE_ERASED, and entries whose attribute byte has the
volume-ID bit 0x08 set, fall through to _Error. -/
def fat_filename_parse (lfnIdx : Nat) (ent : Sector) (buf : Sector) :
    FileEntryType × Nat × Sector :=
  let buf1 := updF buf 0 0
  if byteAt ent 0 ≠ FAT_Config.FILE_CLEAR then
    if byteAt ent 0 ≠ FAT_Config.FILE_ERASED ∧ ¬ (byteAt ent 11).testBit 3 then
      if byteAt ent 11 = FAT_Config.AT_LFN then
        let ordinal := byteAt ent 0
        let st :=
          if 0x40 < ordinal then
            let li := (ordinal - 0x41) * 13 % 256
            (li, updF buf1 (li + 13) 0)
          else ((lfnIdx + 256 - 13) % 256, buf1)
        let buf3 := lfnExtract ent st.1 0 LFN_CHAR_POSITIONS st.2
        if st.1 ≠ 0 then (LongFileNameNOK, st.1, buf3)
        else (LongFileNameOK, st.1, buf3)
      else
        let base := dosBaseChars ent
        let buf2 := bufWrite buf1 0 base
        if (byteAt ent 11).testBit 4 then
          let buf3 := updF (updF buf2 base.length 92) (base.length + 1) 0
          (F_Directory, lfnIdx, buf3)
        else
          let buf3 := bufWrite (updF buf2 base.length 46) (base.length + 1)
            (dosExtChars ent)
          let buf4 := updF buf3 (base.length + 4) 0
          (F_File, lfnIdx, buf4)
    else (F_Error, lfnIdx, buf1)
  else (F_Error, lfnIdx, buf1)

/-- View of the 32-byte directory entry number i inside a sector. -/
def entView (sec : Sector) (i : Nat) : Sector := fun k => sec (32 * i + k)

/-- First-cluster field of a directory entry view: high word at byte 20,
low word at byte 26, combined as (high << 16) | low. -/
def entFirstCluster (v : Sector) : Nat := le16 v 20 * 65536 + le16 v 26

/-- Reads a NUL-terminated byte string out of a character buffer (bounded
by the 255-character LFN maximum). -/
def cstrOf (buf : Sector) : List Nat :=
  ((List.range 255).map (fun i => byteAt buf i)).takeWhile (fun c => c ≠ 0)

/-- Display-name synthesis for a matched 8.3 entry inside file_open
(FAT32.cpp lines 544-558): base name, and for files a dot plus the
space-trimmed extension when the extension is non-blank. -/
def compNameOf (v : Sector) (isDir : Bool) : List Nat :=
  if isDir then dosBaseChars v
  else if byteAt v 8 ≠ 32 then
    dosBaseChars v ++ 46 :: (dosExtChars v).takeWhile (fun c => c ≠ 32)
  else dosBaseChars v

/-- Cluster chain walk of the DELETE / OVERWRITE / CREATE-on-existing
branches of file_open: reads the successor of each cluster, frees the
entry, moves on; stops at a value outside the live range 2..EOC_MIN. -/
def freeChainLoop : Nat → FAT32St → Nat → FAT32St
  | 0, s, _ => s
  | fuel + 1, s, c =>
    if 2 ≤ c ∧ c < FAT32_Cluster.EOC_MIN then
      let p := fat_entry s c 0 false
      let q := fat_entry p.2 c FAT_Config.CLUSTER_FREE true
      freeChainLoop fuel q.2 p.1
    else s

/-- Zeroes the first-cluster words and size field of directory entry i
(the truncation writes of the OVERWRITE / CREATE-on-existing branches). -/
def clearEntryInfo (sec : Sector) (i : Nat) : Sector :=
  writeLE32 (writeLE16 (writeLE16 sec (32 * i + 20) 0) (32 * i + 26) 0) (32 * i + 28) 0

/-- Per-mode actions of file_open once the last path component matched a
directory entry (FAT32.cpp lines 568-651). -/
def processLast (fuel : Nat) (s : FAT32St) (fn : FileFunction) (sec : Sector)
    (lba i : Nat) : FAT_ErrorCode × FAT32St :=
  let v := entView sec i
  let attr := byteAt v 11
  let fc := entFirstCluster v
  match fn with
  | .READ =>
    if attr.testBit 4 then (.FILE_NOT_FOUND, s)
    else (.FILE_FOUND, { s with read_handler := ⟨0, le32 v 28, fc, 0⟩ })
  | .DELETE =>
    if attr.testBit 4 then (.FILE_NOT_FOUND, s)
    else
      let s1 := freeChainLoop fuel s fc
      let ee := updF sec (32 * i) FAT_Config.FILE_ERASED
      match Disk.store s1.disk lba ee with
      | (true, d) => (.FILE_FOUND, { s1 with disk := d })
      | (false, d) => (.FILE_NOT_FOUND, { s1 with disk := d })
  | .OVERWRITE =>
    if attr.testBit 4 then (.FILE_NOT_FOUND, s)
    else
      let s1 := freeChainLoop fuel s fc
      let sec2 := clearEntryInfo sec i
      match Disk.store s1.disk lba sec2 with
      | (false, d) => (.FILE_NOT_FOUND, { s1 with disk := d })
      | (true, d) =>
        (.FILE_FOUND, { s1 with
            disk := d
            write_handler := ⟨lba, le32 (entView sec2 i) 28, 0, 0, 0, 0⟩ })
  | .MODIFY =>
    if attr.testBit 4 then (.FILE_NOT_FOUND, s)
    else (.FILE_FOUND, { s with write_handler := ⟨lba, le32 v 28, fc, fc, 0, 0⟩ })
  | .CREATE =>
    if attr.testBit 4 then (.FILE_NOT_FOUND, s)
    else
      let s1 := freeChainLoop fuel s fc
      let sec2 := clearEntryInfo sec i
      match Disk.store s1.disk lba sec2 with
      | (false, d) => (.FILE_NOT_FOUND, { s1 with disk := d })
      | (true, d) =>
        (.FILE_CREATE_OK, { s1 with
            disk := d
            write_handler := ⟨lba, 0, 0, 0, 0, 0⟩ })

/-- Outcome of scanning directory entries / sectors / clusters for one
path component. -/
inductive ScanOut where
  | cont (s : FAT32St) (lfnFlag : Bool) (lfnName : List Nat)
  | ret (code : FAT_ErrorCode) (s : FAT32St)
  | desc (s : FAT32St) (dirCluster : Nat)

/-- Entry loop of the component scan in file_open (FAT32.cpp lines
512-663): classifies each 32-byte entry, accumulates LFN state, compares
the synthesized name against the path component. -/
def scanEntsFind (fuel : Nat) (fn : FileFunction) (name : List Nat)
    (is_last : Bool) (sec : Sector) (lba : Nat) :
    FAT32St → Bool → List Nat → List Nat → ScanOut
  | s, lfnFlag, lfnName, [] => .cont s lfnFlag lfnName
  | s, lfnFlag, lfnName, i :: rest =>
    let v := entView sec i
    if byteAt v 0 = FAT_Config.FILE_CLEAR then .cont s lfnFlag lfnName
    else if byteAt v 0 = FAT_Config.FILE_ERASED then
      scanEntsFind fuel fn name is_last sec lba s lfnFlag lfnName rest
    else
      let pr := fat_filename_parse s.lfn_index v zeroSec
      let s1 := { s with lfn_index := pr.2.1 }
      match pr.1 with
      | .LongFileNameOK =>
          scanEntsFind fuel fn name is_last sec lba s1 true (cstrOf pr.2.2) rest
      | .LongFileNameNOK =>
          scanEntsFind fuel fn name is_last sec lba s1 lfnFlag lfnName rest
      | .F_Error =>
          scanEntsFind fuel fn name is_last sec lba s1 lfnFlag lfnName rest
      | ty =>
        let comp :=
          if lfnFlag ∧ lfnName ≠ [] then lfnName
          else compNameOf v (ty = .F_Directory)
        if iequals comp name then
          let fc := entFirstCluster v
          if is_last then
            let r := processLast fuel s1 fn sec lba i
            .ret r.1 r.2
          else
            if (byteAt v 11).testBit 4 ∧ 2 ≤ fc ∧ fc < FAT32_Cluster.EOC_MIN then
              .desc s1 fc
            else scanEntsFind fuel fn name is_last sec lba s1 false [] rest
        else scanEntsFind fuel fn name is_last sec lba s1 false [] rest

/-- Sector loop of the component scan: reads each sector of the current
directory cluster; a failed block read aborts with FILE_NOT_FOUND. -/
def scanSectors (fuel : Nat) (fn : FileFunction) (name : List Nat)
    (is_last : Bool) (cluster : Nat) :
    FAT32St → Bool → List Nat → List Nat → ScanOut
  | s, lfnFlag, lfnName, [] => .cont s lfnFlag lfnName
  | s, lfnFlag, lfnName, secIdx :: rest =>
    let lba := s.data_base + (cluster - 2) * s.cluster_size + secIdx
    match s.disk.readF lba with
    | none => .ret .FILE_NOT_FOUND s
    | some sec =>
      match scanEntsFind fuel fn name is_last sec lba s lfnFlag lfnName
          (List.range (s.sector_size / 32)) with
      | .cont s1 f1 n1 => scanSectors fuel fn name is_last cluster s1 f1 n1 rest
      | out => out

/-- Cluster chain loop of the component scan, following the FAT to the next
directory cluster; a .cont outcome means the component was not found. -/
def scanChain (fn : FileFunction) (name : List Nat) (is_last : Bool) :
    Nat → FAT32St → Nat → Bool → List Nat → ScanOut
  | 0, s, _, lfnFlag, lfnName => .cont s lfnFlag lfnName
  | fuelC + 1, s, cluster, lfnFlag, lfnName =>
    if 2 ≤ cluster ∧ cluster < FAT32_Cluster.EOC_MIN then
      match scanSectors fuelC fn name is_last cluster s lfnFlag lfnName
          (List.range s.cluster_size) with
      | .cont s1 f1 n1 =>
        let p := fat_entry s1 cluster 0 false
        if FAT32_Cluster.EOC_MIN ≤ p.1 ∨ p.1 = 0 then .cont p.2 f1 n1
        else scanChain fn name is_last fuelC p.2 p.1 f1 n1
      | out => out
    else .cont s lfnFlag lfnName

/-- Zeroing loop over the sectors of a freshly allocated cluster; aborts on
the first failed store. -/
def zeroClusterSecs : FAT32St → Nat → List Nat → Bool × FAT32St
  | s, _, [] => (true, s)
  | s, c, si :: rest =>
    let lba := s.data_base + (c - 2) * s.cluster_size + si
    match Disk.store s.disk lba zeroSec with
    | (true, d) => zeroClusterSecs { s with disk := d } c rest
    | (false, d) => (false, { s with disk := d })

/-- Zeroes all cluster_size sectors of a cluster. -/
def zeroCluster (s : FAT32St) (c : Nat) : Bool × FAT32St :=
  zeroClusterSecs s c (List.range s.cluster_size)

/-- First free or erased directory slot in a sector. -/
def findSlotIdx (sec : Sector) (idxs : List Nat) : Option Nat :=
  idxs.find? (fun i =>
    byteAt (entView sec i) 0 = FAT_Config.FILE_CLEAR ∨
    byteAt (entView sec i) 0 = FAT_Config.FILE_ERASED)

/-- A fresh zero directory entry carrying an 8.3 name and the ARCHIVE
attribute, written over slot i (memset + field assignments of the create
path). -/
def mkEntryAt (sec : Sector) (i : Nat) (dos11 : List Nat) : Sector :=
  fun j =>
    if 32 * i ≤ j ∧ j < 32 * i + 32 then
      if j - 32 * i < 11 then dos11.getD (j - 32 * i) 0 % 256
      else if j - 32 * i = 11 then FAT_Config.AT_ARCHIVE
      else 0
    else sec j

/-- Sector loop of the free-slot search in the create-on-missing path of
file_open (FAT32.cpp lines 696-722); none means no slot in this cluster. -/
def slotSectors : FAT32St → Nat → List Nat → List Nat →
    Option (FAT_ErrorCode × FAT32St)
  | _, _, _, [] => none
  | s, cluster2, dos11, secIdx :: rest =>
    let lba := s.data_base + (cluster2 - 2) * s.cluster_size + secIdx
    match s.disk.readF lba with
    | none => some (.FILE_NOT_FOUND, s)
    | some sec =>
      match findSlotIdx sec (List.range (s.sector_size / 32)) with
      | some i =>
        let sec2 := mkEntryAt sec i dos11
        match Disk.store s.disk lba sec2 with
        | (true, d) =>
            some (.FILE_CREATE_OK,
              { s with disk := d, write_handler := ⟨lba, 0, 0, 0, 0, 0⟩ })
        | (false, d) => some (.FILE_NOT_FOUND, { s with disk := d })
      | none => slotSectors s cluster2 dos11 rest

/-- Directory extension of the create-on-missing path (FAT32.cpp lines
725-759): allocate a cluster, link it, zero it, and place the new entry
at its first slot. -/
def extendDir (s : FAT32St) (cluster2 : Nat) (dos11 : List Nat) :
    FAT_ErrorCode × FAT32St :=
  let p := fat_search_available_cluster s (cluster2 % 65536)
  if p.1 < 2 then (.NO_MORE_FREE_CLUSTER, p.2)
  else
    let q := fat_entry p.2 cluster2 p.1 true
    let r := fat_entry q.2 p.1 FAT32_Cluster.EOC_MIN true
    let z := zeroCluster r.2 p.1
    if z.1 = false then (.FILE_NOT_FOUND, z.2)
    else
      let lba := z.2.data_base + (p.1 - 2) * z.2.cluster_size
      match z.2.disk.readF lba with
      | none => (.FILE_NOT_FOUND, z.2)
      | some _ =>
        let sec2 := mkEntryAt zeroSec 0 dos11
        match Disk.store z.2.disk lba sec2 with
        | (true, d) =>
            (.FILE_CREATE_OK,
              { z.2 with disk := d, write_handler := ⟨lba, 0, 0, 0, 0, 0⟩ })
        | (false, d) => (.FILE_NOT_FOUND, { z.2 with disk := d })

/-- Cluster loop of the create-on-missing path: search every cluster of the
parent directory for a free slot, extending the directory at the end of
its chain. -/
def slotChain : Nat → FAT32St → Nat → List Nat → FAT_ErrorCode × FAT32St
  | 0, s, _, _ => (.FILE_NOT_FOUND, s)
  | fuel + 1, s, cluster2, dos11 =>
    if 2 ≤ cluster2 ∧ cluster2 < FAT32_Cluster.EOC_MIN then
      match slotSectors s cluster2 dos11 (List.range s.cluster_size) with
      | some out => out
      | none =>
        let p := fat_entry s cluster2 0 false
        if FAT32_Cluster.EOC_MIN ≤ p.1 ∨ p.1 = 0 then extendDir p.2 cluster2 dos11
        else slotChain fuel p.2 p.1 dos11
    else (.FILE_NOT_FOUND, s)

/-- Create-on-missing tail of file_open: convert the component to 8.3 form
and place a fresh zero-length entry in the parent directory. -/
def createMissing (fuel : Nat) (s : FAT32St) (dir : Nat) (name : List Nat) :
    FAT_ErrorCode × FAT32St :=
  match to_dos_8_3 name with
  | none => (.FILE_NOT_FOUND, s)
  | some dos11 => slotChain fuel s dir dos11

/-- Component loop of file_open (FAT32.cpp lines 490-766): scan for each
path component, descend into matched directories, and on a missing last
component apply the per-function create-or-fail policy. -/
def walkParts (fuel : Nat) (fn : FileFunction) :
    FAT32St → List (List Nat) → Nat → FAT_ErrorCode × FAT32St
  | s, [], _ => (.FILE_NOT_FOUND, s)
  | s, name :: rest, dir =>
    match scanChain fn name (rest = []) fuel s dir false [] with
    | .ret code s1 => (code, s1)
    | .desc s1 dir1 => walkParts fuel fn s1 rest dir1
    | .cont s1 _ _ =>
      if rest ≠ [] then (.FILE_NOT_FOUND, s1)
      else
        match fn with
        | .READ => (.FILE_NOT_FOUND, s1)
        | .DELETE => (.FILE_NOT_FOUND, s1)
        | .MODIFY => (.FILE_NOT_FOUND, s1)
        | .CREATE => createMissing fuel s1 dir name
        | .OVERWRITE => createMissing fuel s1 dir name

/-- Model of FAT32::file_open (FAT32.cpp lines 421-769).  The path is a
byte string; fuel bounds the cluster chain walks of the source, which are
while loops. -/
def file_open (fuel : Nat) (s : FAT32St) (path : List Nat)
    (fn : FileFunction) : FAT_ErrorCode × FAT32St :=
  if s.fsInit = false ∨ path = [] then (.FILE_NOT_FOUND, s) else
  let abs := path.headD 0 = 47
  let p := if abs then path.tail else path
  let dir0 :=
    if abs then s.root_dir_first_cluster
    else if 2 ≤ s.current_dir_cluster then s.current_dir_cluster
    else s.root_dir_first_cluster
  let toks := tokenize p
  if toks = [] then (.FILE_NOT_FOUND, s)
  else if (toks.dropWhile (fun t => t = [46])).headD [] = [46, 46] then
    (.FILE_NOT_FOUND, s)
  else
    let parts := toks.filter (fun t => t ≠ [46])
    if parts = [] then (.FILE_NOT_FOUND, s)
    else walkParts fuel fn s parts dir0

/-- Entry scan of the first-cluster update inside file_write (FAT32.cpp
lines 886-901): first live non-LFN entry whose size equals the handler
size and whose first-cluster words are zero; stops at end-of-directory. -/
def findFCUpdIdx (fsz : Nat) (sec : Sector) : List Nat → Option Nat
  | [] => none
  | i :: rest =>
    let v := entView sec i
    if byteAt v 0 = FAT_Config.FILE_CLEAR then none
    else if byteAt v 0 = FAT_Config.FILE_ERASED then findFCUpdIdx fsz sec rest
    else if byteAt v 11 % 16 = 15 then findFCUpdIdx fsz sec rest
    else if le32 v 28 = fsz ∧ le16 v 20 = 0 ∧ le16 v 26 = 0 then some i
    else findFCUpdIdx fsz sec rest

/-- First-cluster allocation of file_write when the handler has no current
cluster yet (FAT32.cpp lines 863-903): search a free cluster, mark it EOC,
zero it, and patch the first-cluster words of the owning directory entry.
A false first component means file_write returns early. -/
def allocFirst (s : FAT32St) (dir_lba : Nat) : Bool × FAT32St :=
  let p := fat_search_available_cluster s 2
  if p.1 < 2 then (false, p.2)
  else
    let q := fat_entry p.2 p.1 FAT32_Cluster.EOC_MIN true
    let z := zeroCluster q.2 p.1
    if z.1 = false then (false, z.2)
    else
      let s4 := { z.2 with write_handler := { z.2.write_handler with
        BaseFatEntry := p.1
        CurrentFatEntry := p.1
        ClusterIndex := 0
        SectorIndex := 0 } }
      match s4.disk.readF dir_lba with
      | none => (true, s4)
      | some sec =>
        match findFCUpdIdx s4.write_handler.File_Size sec
            (List.range (s4.sector_size / 32)) with
        | none => (true, s4)
        | some i =>
          let sec2 := writeLE16 (writeLE16 sec (32 * i + 20) (p.1 / 65536 % 65536))
            (32 * i + 26) (p.1 % 65536)
          match Disk.store s4.disk dir_lba sec2 with
          | (_, d) => (true, { s4 with disk := d })

/-- Sector streaming loop of file_write (FAT32.cpp lines 905-949): writes
min(remaining, sector_size) bytes per iteration, read-modify-write for a
partial trailing chunk, advancing the sector cursor and allocating a new
cluster at each cluster boundary.  Any failed store returns with the state
reached so far, as the early returns of the source do. -/
def writeChunkLoop : Nat → FAT32St → List Nat → FAT32St
  | 0, s, _ => s
  | _ + 1, s, [] => s
  | fuel + 1, s, d0 :: drest =>
    let data := d0 :: drest
    let cur := s.write_handler.CurrentFatEntry
    let lba := (s.data_base + (cur + 4294967296 - 2) % 4294967296 * s.cluster_size +
      s.write_handler.SectorIndex) % 4294967296
    let chunk := min data.length s.sector_size
    let w : Bool × FAT32St :=
      if chunk ≠ s.sector_size then
        match s.disk.readF lba with
        | none => (false, s)
        | some sec =>
          match Disk.store s.disk lba (writeBytes sec (data.take chunk)) with
          | (ok, d) => (ok, { s with disk := d })
      else
        match Disk.store s.disk lba (writeBytes zeroSec (data.take chunk)) with
        | (ok, d) => (ok, { s with disk := d })
    if w.1 = false then w.2
    else
      let wh1 : WriteHandler := { w.2.write_handler with
        File_Size := (w.2.write_handler.File_Size + chunk) % 4294967296
        SectorIndex := w.2.write_handler.SectorIndex + 1 }
      let s1 : FAT32St := { w.2 with write_handler := wh1 }
      if s1.cluster_size ≤ wh1.SectorIndex then
        let s2 := { s1 with write_handler := { wh1 with SectorIndex := 0 } }
        let p := fat_entry s2 cur 0 false
        if p.1 < 2 ∨ FAT32_Cluster.EOC_MIN ≤ p.1 then
          let q := fat_search_available_cluster p.2 (cur % 65536)
          if q.1 < 2 then q.2
          else
            let r1 := fat_entry q.2 cur q.1 true
            let r2 := fat_entry r1.2 q.1 FAT32_Cluster.EOC_MIN true
            let z := zeroCluster r2.2 q.1
            if z.1 = false then z.2
            else
              writeChunkLoop fuel
                { z.2 with write_handler :=
                    { z.2.write_handler with CurrentFatEntry := q.1 } }
                (data.drop chunk)
        else
          writeChunkLoop fuel
            { p.2 with write_handler :=
                { p.2.write_handler with CurrentFatEntry := p.1 } }
            (data.drop chunk)
      else writeChunkLoop fuel s1 (data.drop chunk)

/-- Entry scan of the final size update of file_write (FAT32.cpp lines
955-967): first live non-LFN entry whose first cluster matches the handler
base cluster (or, for base 0, any non-zero first cluster). -/
def findSizeUpdIdx (base : Nat) (sec : Sector) : List Nat → Option Nat
  | [] => none
  | i :: rest =>
    let v := entView sec i
    if byteAt v 0 = FAT_Config.FILE_CLEAR then none
    else if byteAt v 0 = FAT_Config.FILE_ERASED then findSizeUpdIdx base sec rest
    else if byteAt v 11 % 16 = 15 then findSizeUpdIdx base sec rest
    else if (base ≠ 0 ∧ entFirstCluster v = base) ∨
        (base = 0 ∧ entFirstCluster v ≠ 0) then some i
    else findSizeUpdIdx base sec rest

/-- Final directory size update of file_write (FAT32.cpp lines 952-968);
read or store failures are silently ignored by the source. -/
def sizeUpdateWrite (s : FAT32St) (dir_lba : Nat) : FAT32St :=
  match s.disk.readF dir_lba with
  | none => s
  | some sec =>
    match findSizeUpdIdx s.write_handler.BaseFatEntry sec
        (List.range (s.sector_size / 32)) with
    | none => s
    | some i =>
      let sec2 := writeLE32 sec (32 * i + 28) s.write_handler.File_Size
      match Disk.store s.disk dir_lba sec2 with
      | (_, d) => { s with disk := d }

/-- Model of FAT32::file_write (FAT32.cpp lines 855-969). -/
def file_write (fuel : Nat) (s : FAT32St) (data : List Nat) : FAT32St :=
  if s.fsInit = false ∨ data = [] then s else
  let dir_lba := s.write_handler.Dir_Entry
  if dir_lba = 0 then s else
  let a : Bool × FAT32St :=
    if s.write_handler.CurrentFatEntry < 2 then allocFirst s dir_lba
    else (true, s)
  if a.1 = false then a.2
  else sizeUpdateWrite (writeChunkLoop fuel a.2 data) dir_lba

/-- Entry scan of update_directory_entry_size (FAT32.cpp lines 1068-1088):
first live non-LFN entry whose first cluster equals the non-zero handler
base cluster. -/
def findSizeUpdIdxClose (base : Nat) (sec : Sector) : List Nat → Option Nat
  | [] => none
  | i :: rest =>
    let v := entView sec i
    if byteAt v 0 = FAT_Config.FILE_CLEAR then none
    else if byteAt v 0 = FAT_Config.FILE_ERASED then findSizeUpdIdxClose base sec rest
    else if byteAt v 11 % 16 = 15 then findSizeUpdIdxClose base sec rest
    else if base ≠ 0 ∧ entFirstCluster v = base then some i
    else findSizeUpdIdxClose base sec rest

/-- Model of FAT32::update_directory_entry_size (FAT32.cpp lines
1054-1096). -/
def update_directory_entry_size (s : FAT32St) : FAT32St :=
  if s.write_handler.Dir_Entry = 0 then s else
  match s.disk.readF s.write_handler.Dir_Entry with
  | none => s
  | some sec =>
    match findSizeUpdIdxClose s.write_handler.BaseFatEntry sec
        (List.range (s.sector_size / 32)) with
    | none => s
    | some i =>
      let sec2 := writeLE32 sec (32 * i + 28) s.write_handler.File_Size
      match Disk.store s.disk s.write_handler.Dir_Entry sec2 with
      | (_, d) => { s with disk := d }

/-- Model of FAT32::file_close (FAT32.cpp lines 771-797): finalize the
directory entry size for an open write handler and reset the handlers. -/
def file_close (s : FAT32St) : FAT32St :=
  let s1 :=
    if s.write_handler.Dir_Entry ≠ 0 then
      { update_directory_entry_size s with write_handler := WriteHandler.init }
    else s
  if s1.read_handler.Dir_Entry ≠ 0 then { s1 with read_handler := ReadHandler.init }
  else s1

/-- Display name of a directory entry as built by the scans inside
rename_file (base, plus dot and space-trimmed extension when the extension
is non-blank). -/
def entDisplayName (v : Sector) : List Nat :=
  dosBaseChars v ++
    (if byteAt v 8 ≠ 32 then 46 :: (dosExtChars v).takeWhile (fun c => c ≠ 32)
     else [])

/-- Collision scan of rename_file (FAT32.cpp lines 1373-1388): true when a
live non-LFN entry already bears the new name. -/
def renameCollision (newb : List Nat) (sec : Sector) : List Nat → Bool
  | [] => false
  | i :: rest =>
    let v := entView sec i
    if byteAt v 0 = FAT_Config.FILE_CLEAR then false
    else if byteAt v 0 = FAT_Config.FILE_ERASED then renameCollision newb sec rest
    else if byteAt v 11 = FAT_Config.AT_LFN then renameCollision newb sec rest
    else if iequals (entDisplayName v) newb then true
    else renameCollision newb sec rest

/-- Update scan of rename_file (FAT32.cpp lines 1391-1405): index of the
first live non-LFN entry bearing the old name. -/
def renameFindOld (oldb : List Nat) (sec : Sector) : List Nat → Option Nat
  | [] => none
  | i :: rest =>
    let v := entView sec i
    if byteAt v 0 = FAT_Config.FILE_CLEAR then none
    else if byteAt v 0 = FAT_Config.FILE_ERASED then renameFindOld oldb sec rest
    else if byteAt v 11 = FAT_Config.AT_LFN then renameFindOld oldb sec rest
    else if iequals (entDisplayName v) oldb then some i
    else renameFindOld oldb sec rest

/-- The 11 name bytes of entry i replaced by a fresh 8.3 name (the two
memcpy calls of rename_file). -/
def writeName11 (sec : Sector) (i : Nat) (dos11 : List Nat) : Sector :=
  fun j =>
    if 32 * i ≤ j ∧ j < 32 * i + 11 then dos11.getD (j - 32 * i) 0 % 256
    else sec j

/-- Model of FAT32::rename_file (FAT32.cpp lines 1342-1407). -/
def rename_file (fuel : Nat) (s : FAT32St) (old_name new_name : List Nat) :
    Bool × FAT32St :=
  if s.fsInit = false then (false, s) else
  let old_base := basenameOf old_name
  let new_base := basenameOf new_name
  match to_dos_8_3 new_base with
  | none => (false, s)
  | some dos11 =>
    let p := file_open fuel s old_name .MODIFY
    if p.1 ≠ FAT_ErrorCode.FILE_FOUND ∧ p.1 ≠ FAT_ErrorCode.FILE_CREATE_OK then
      (false, p.2)
    else
      let s1 := p.2
      let dir_lba := s1.write_handler.Dir_Entry
      if dir_lba = 0 then (false, s1) else
      match s1.disk.readF dir_lba with
      | none => (false, s1)
      | some sec =>
        if renameCollision new_base sec (List.range (s1.sector_size / 32)) then
          (false, s1)
        else
          match renameFindOld old_base sec (List.range (s1.sector_size / 32)) with
          | none => (false, s1)
          | some i =>
            let sec2 := writeName11 sec i dos11
            match Disk.store s1.disk dir_lba sec2 with
            | (ok, d) => (ok, { s1 with disk := d })

/-- SDCard status codes (SDCard.h). -/
def SD_OK : Nat := 0
def SD_INIT_FAILS : Nat := 2
def SD_WRITE_COMMAND_FAILS : Nat := 7
def SD_WRITE_DATA_FAILS : Nat := 8
def SD_WRITE_TIMEOUT_BUSY : Nat := 12
def SD_WRITE_STATUS_ERROR : Nat := 13

/-- SDHC card type constant (SDCard.h). -/
def CARD_TYPE_SDHC : Nat := 2

/-- Driver-visible card state (SDCard members). -/
structure SDSt where
  sdInit : Bool
  card_type : Nat
  last_status : Nat
deriving DecidableEq

/-- The card-side responses observed during one write_block call: the R1
response to CMD24, the data-response byte after the 512-byte transfer,
whether the busy poll saw the card become ready within the 600 ms
WRITE_TIMEOUT_MS bound, and the R1/R2 responses to the follow-up CMD13. -/
structure SpiWriteEnv where
  r1cmd24 : Nat
  dataResp : Nat
  busyOk : Bool
  r1cmd13 : Nat
  r2 : Nat
deriving DecidableEq

/-- Model of SDCard::write_block (SDCard.cpp lines 204-252): returns the
success flag, the recorded status code, and the 32-bit address argument
sent with CMD24 (none when the command was never issued). -/
def sd_write_block (sd : SDSt) (env : SpiWriteEnv) (lba : Nat) :
    Bool × Nat × Option Nat :=
  if sd.sdInit = false then (false, SD_INIT_FAILS, none) else
  let address :=
    if sd.card_type = CARD_TYPE_SDHC then lba % 4294967296
    else lba * 512 % 4294967296
  if env.r1cmd24 % 256 ≠ 0 then (false, SD_WRITE_COMMAND_FAILS, some address)
  else if env.dataResp % 256 % 32 ≠ 0x05 then
    (false, SD_WRITE_DATA_FAILS, some address)
  else if env.busyOk = false then (false, SD_WRITE_TIMEOUT_BUSY, some address)
  else if env.r1cmd13 % 256 ≠ 0 ∨ env.r2 % 256 ≠ 0 then
    (false, SD_WRITE_STATUS_ERROR, some address)
  else (true, SD_OK, some address)

/-- Bytes of a FAT sector holding the given 32-bit entry values. -/
def secOfFatEnts (f : Nat → Nat) : Sector :=
  fun off => f (off / 4) / 256 ^ (off % 4) % 256

/-- Byte k of a 32-byte directory entry with the given 11-byte name,
attribute, first cluster and size. -/
def entryByte (name11 : List Nat) (attr clus size k : Nat) : Nat :=
  if k < 11 then name11.getD k 32
  else if k = 11 then attr
  else if k = 20 then clus / 65536 % 256
  else if k = 21 then clus / 16777216 % 256
  else if k = 26 then clus % 256
  else if k = 27 then clus / 256 % 256
  else if k = 28 then size % 256
  else if k = 29 then size / 256 % 256
  else if k = 30 then size / 65536 % 256
  else if k = 31 then size / 16777216 % 256
  else 0

/-- A directory sector built from a list of (name11, attribute, first
cluster, size) quadruples; remaining slots read as end-of-directory. -/
def dirSecOf (ents : List (List Nat × Nat × Nat × Nat)) : Sector :=
  fun off =>
    match ents.get? (off / 32) with
    | some e => entryByte e.1 e.2.1 e.2.2.1 e.2.2.2 (off % 32)
    | none => 0

/-- A freshly mounted driver state over the given disk, with the small
test geometry used by the concrete volumes: 512-byte sectors, 2-sector
clusters, one FAT sector at LBA 1, data at LBA 2, root cluster 2. -/
def mkVol (d : Disk) : FAT32St :=
  { disk := d
    fsInit := true
    sector_size := 512
    cluster_size := 2
    fat_base := 1
    data_base := 2
    sectors_per_fat := 1
    sectors_in_partition := 14
    first_data_sector := 2
    last_cluster := 7
    root_dir_first_cluster := 2
    current_dir_cluster := 2
    fat_cache_sector := 4294967295
    fat_cache_valid := false
    fat_cache := zeroSec
    read_handler := ReadHandler.init
    write_handler := WriteHandler.init
    lfn_index := 0 }

/-- FAT entry values of the empty test volume: the two reserved entries
and an end-of-chain marker for the root cluster. -/
def fatEntsEmpty (e : Nat) : Nat :=
  if e = 0 then 0x0FFFFFF8 else if e = 1 then 0x0FFFFFFF
  else if e = 2 then 0x0FFFFFF8 else 0

/-- Disk of the empty test volume: FAT sector at LBA 1, everything else
zero; every sector is readable and writable. -/
def diskEmpty : Disk :=
  { readF := fun lba => some (if lba = 1 then secOfFatEnts fatEntsEmpty else zeroSec)
    writeOk := fun _ => true }

/-- The empty mounted test volume. -/
def vol0 : FAT32St := mkVol diskEmpty

/-- Path "A.TXT". -/
def pathA : List Nat := [65, 46, 84, 88, 84]

/-- Byte string D1 of the two-call write counterexample. -/
def D1 : List Nat := [1, 2, 3, 4, 5, 6, 7, 8, 9, 10]

/-- Byte string D2 of the two-call write counterexample. -/
def D2 : List Nat := [11, 12, 13, 14, 15, 16, 17, 18, 19, 20]

/-- Concrete 35-byte content for the read-back scenario. -/
def D35 : List Nat := (List.range 35).map (fun i => 100 + i)

/-- FAT of the volume holding B.BIN on the chain 3 -> 4 -> 5. -/
def fatEntsC2 (e : Nat) : Nat :=
  if e = 0 then 0x0FFFFFF8 else if e = 1 then 0x0FFFFFFF
  else if e = 2 then 0x0FFFFFF8 else if e = 3 then 4
  else if e = 4 then 5 else if e = 5 then 0x0FFFFFF8 else 0

/-- 8.3 name bytes of B.BIN. -/
def nameB : List Nat := [66, 32, 32, 32, 32, 32, 32, 32, 66, 73, 78]

/-- Root directory sector of the delete test volume. -/
def rootC2 : Sector := dirSecOf [(nameB, 0x20, 3, 1500)]

/-- Disk of the delete test volume. -/
def diskC2 : Disk :=
  { readF := fun lba =>
      some (if lba = 1 then secOfFatEnts fatEntsC2
            else if lba = 2 then rootC2 else zeroSec)
    writeOk := fun _ => true }

/-- Volume holding the three-cluster file B.BIN. -/
def volC2 : FAT32St := mkVol diskC2

/-- Path "B.BIN". -/
def pathB : List Nat := [66, 46, 66, 73, 78]

/-- 8.3 name bytes of the directory SUB. -/
def nameSUB : List Nat := [83, 85, 66, 32, 32, 32, 32, 32, 32, 32, 32]

/-- 8.3 name bytes of A.TXT. -/
def nameA : List Nat := [65, 32, 32, 32, 32, 32, 32, 32, 84, 88, 84]

/-- 8.3 name bytes of the dot entry. -/
def nameDot : List Nat := [46, 32, 32, 32, 32, 32, 32, 32, 32, 32, 32]

/-- 8.3 name bytes of the dot-dot entry. -/
def nameDotDot : List Nat := [46, 46, 32, 32, 32, 32, 32, 32, 32, 32, 32]

/-- FAT of the volume holding the subdirectory SUB. -/
def fatEntsC9 (e : Nat) : Nat :=
  if e = 0 then 0x0FFFFFF8 else if e = 1 then 0x0FFFFFFF
  else if e = 2 then 0x0FFFFFF8 else if e = 3 then 0x0FFFFFF8 else 0

/-- Root directory of the path test volume: SUB (cluster 3) and A.TXT. -/
def rootC9 : Sector := dirSecOf [(nameSUB, 0x10, 3, 0), (nameA, 0x20, 0, 5)]

/-- First sector of SUB, holding its dot and dot-dot entries as
create_directory writes them. -/
def subC9 : Sector := dirSecOf [(nameDot, 0x10, 3, 0), (nameDotDot, 0x10, 2, 0)]

/-- Disk of the path test volume. -/
def diskC9 : Disk :=
  { readF := fun lba =>
      some (if lba = 1 then secOfFatEnts fatEntsC9
            else if lba = 2 then rootC9
            else if lba = 4 then subC9 else zeroSec)
    writeOk := fun _ => true }

/-- Volume with a subdirectory carrying an on-disk dot-dot entry. -/
def volC9 : FAT32St := mkVol diskC9

/-- Path "SUB/../A.TXT". -/
def pathDD : List Nat := [83, 85, 66, 47, 46, 46, 47, 65, 46, 84, 88, 84]

/-- Path "./A.TXT". -/
def pathDotA : List Nat := [46, 47, 65, 46, 84, 88, 84]

/-- Path "../A.TXT". -/
def pathUpA : List Nat := [46, 46, 47, 65, 46, 84, 88, 84]

/-- A 32-byte LFN directory entry: ordinal 0x41, attribute 0x0F, with
ASCII characters in its low UTF-16 bytes. -/
def lfnEnt : Sector :=
  fun k => if k = 0 then 0x41 else if k = 11 then 0x0F
    else if k % 2 = 1 ∧ k < 10 then 65 + k else 0

/-- 8.3 name bytes of OLD.TXT. -/
def nameOLD : List Nat := [79, 76, 68, 32, 32, 32, 32, 32, 84, 88, 84]

/-- 8.3 name bytes of OTHER.TXT. -/
def nameOTH : List Nat := [79, 84, 72, 69, 82, 32, 32, 32, 84, 88, 84]

/-- FAT of the rename test volume. -/
def fatEntsC8 (e : Nat) : Nat :=
  if e = 0 then 0x0FFFFFF8 else if e = 1 then 0x0FFFFFFF
  else if e = 2 then 0x0FFFFFF8 else if e = 3 then 0x0FFFFFF8
  else if e = 4 then 0x0FFFFFF8 else 0

/-- Root directory of the rename test volume. -/
def rootC8 : Sector := dirSecOf [(nameOLD, 0x20, 3, 7), (nameOTH, 0x20, 4, 3)]

/-- Disk of the rename test volume. -/
def diskC8 : Disk :=
  { readF := fun lba =>
      some (if lba = 1 then secOfFatEnts fatEntsC8
            else if lba = 2 then rootC8 else zeroSec)
    writeOk := fun _ => true }

/-- Volume holding OLD.TXT and OTHER.TXT. -/
def volC8 : FAT32St := mkVol diskC8

/-- Path "OLD.TXT". -/
def pOLD : List Nat := [79, 76, 68, 46, 84, 88, 84]

/-- Path "NEW.TXT". -/
def pNEW : List Nat := [78, 69, 87, 46, 84, 88, 84]

/-- FAT sector of the truncation test volume: clusters 2..8 chained as
EOC, everything past them free. -/
def fatC10a : Sector :=
  secOfFatEnts (fun e =>
    if e ≤ 1 then 0x0FFFFFFF else if 2 ≤ e ∧ e ≤ 8 then 0x0FFFFFF8 else 0)

/-- Disk of the truncation test volume: every FAT sector past the first
reads all-free. -/
def diskC10 : Disk :=
  { readF := fun lba => some (if lba = 1 then fatC10a else zeroSec)
    writeOk := fun _ => true }

/-- A mounted volume whose medium actually has 65544 clusters: the
uint16_t last_cluster member holds (65544 + 1) mod 65536 = 9. -/
def volC10 : FAT32St := { mkVol diskC10 with last_cluster := last_cluster_of_total 65544 }

/-- Volume of the free-count test: one FAT sector, one-sector clusters,
ten usable data clusters, only the root chain allocated. -/
def volC5 : FAT32St := { mkVol diskEmpty with cluster_size := 1, sectors_in_partition := 12 }

/-- An initialized non-SDHC card with OK status. -/
def sdOK : SDSt := ⟨true, 0, 0⟩

/-- An initialized SDHC card. -/
def sdHC : SDSt := ⟨true, 2, 0⟩

/-- Cache coherence: when the FAT cache is valid, the medium holds exactly
the cached bytes at the cached LBA (maintained by the write-through
policy). -/
def cacheOK (s : FAT32St) : Prop :=
  s.fat_cache_valid = true → s.disk.readF s.fat_cache_sector = some s.fat_cache

/-- The LBA of the FAT sector owning the entry of a cluster, as computed
inside fat_entry. -/
def fatLbaOf (s : FAT32St) (c : Nat) : Nat :=
  s.fat_base + c * 4 % 4294967296 / s.sector_size

/-- The byte offset of the entry of a cluster inside its FAT sector. -/
def entOffOf (s : FAT32St) (c : Nat) : Nat := c * 4 % 4294967296 % s.sector_size

/-- State after (re)loading the FAT cache with a sector. -/
def loadSt (s : FAT32St) (lba : Nat) (sec : Sector) : FAT32St :=
  { s with fat_cache := sec, fat_cache_sector := lba, fat_cache_valid := true }

/-- Disk after a successful sector store. -/
def storedD (d : Disk) (lba : Nat) (sec : Sector) : Disk :=
  { readF := fun l => if l = lba then some sec else d.readF l, writeOk := d.writeOk }

theorem Disk.store_ok (d : Disk) (lba : Nat) (sec : Sector)
    (h : d.writeOk lba = true) : Disk.store d lba sec = (true, storedD d lba sec) := by
  simp [Disk.store, storedD, h]

/-- On-disk cluster chain of a file, collected by walking the stored FAT
values, stopping outside the live range; fuel bounds the walk. -/
def chainListD (s : FAT32St) : Nat → Nat → List Nat
  | 0, _ => []
  | fuel + 1, c =>
    if 2 ≤ c ∧ c < FAT32_Cluster.EOC_MIN then
      c :: (match fatValOnDisk s c with
            | none => []
            | some v => chainListD s fuel v)
    else []

/-- The chain walk reaches a terminal (non-live) value within the given
fuel, every step reading back from the medium. -/
def chainReachesEnd (s : FAT32St) : Nat → Nat → Bool
  | 0, c => decide (¬ (2 ≤ c ∧ c < FAT32_Cluster.EOC_MIN))
  | fuel + 1, c =>
    if 2 ≤ c ∧ c < FAT32_Cluster.EOC_MIN then
      match fatValOnDisk s c with
      | none => false
      | some v => chainReachesEnd s fuel v
    else true

theorem updF_eval (sec : Sector) (i v j : Nat) :
    updF sec i v j = if j = i then v else sec j := rfl

theorem writeLE32_frame (sec : Sector) (i v j : Nat) (h0 : j ≠ i) (h1 : j ≠ i + 1)
    (h2 : j ≠ i + 2) (h3 : j ≠ i + 3) : writeLE32 sec i v j = sec j := by
  unfold writeLE32 updF
  split_ifs <;> first | rfl | omega

theorem writeLE16_frame (sec : Sector) (i v j : Nat) (h0 : j ≠ i) (h1 : j ≠ i + 1) :
    writeLE16 sec i v j = sec j := by
  unfold writeLE16 updF
  split_ifs <;> first | rfl | omega

theorem writeLE32_eval0 (sec : Sector) (i v : Nat) : writeLE32 sec i v i = v % 256 := by
  unfold writeLE32 updF
  split_ifs <;> omega

theorem writeLE32_eval1 (sec : Sector) (i v : Nat) :
    writeLE32 sec i v (i + 1) = v / 256 % 256 := by
  unfold writeLE32 updF
  split_ifs <;> omega

theorem writeLE32_eval2 (sec : Sector) (i v : Nat) :
    writeLE32 sec i v (i + 2) = v / 65536 % 256 := by
  unfold writeLE32 updF
  split_ifs <;> omega

theorem writeLE32_eval3 (sec : Sector) (i v : Nat) :
    writeLE32 sec i v (i + 3) = v / 16777216 % 256 := by
  unfold writeLE32 updF
  split_ifs <;> omega

theorem le32_writeLE32 (sec : Sector) (i v : Nat) :
    le32 (writeLE32 sec i v) i = v % 4294967296 := by
  unfold le32 byteAt
  rw [writeLE32_eval0, writeLE32_eval1, writeLE32_eval2, writeLE32_eval3]
  omega

theorem le32_congr (f g : Sector) (i : Nat) (h : ∀ k, k < 4 → f (i + k) = g (i + k)) :
    le32 f i = le32 g i := by
  have h0 := h 0 (by omega)
  have h1 := h 1 (by omega)
  have h2 := h 2 (by omega)
  have h3 := h 3 (by omega)
  simp only [Nat.add_zero] at h0
  unfold le32 byteAt
  rw [h0, h1, h2, h3]

theorem writeLE16_eval0 (sec : Sector) (i v : Nat) : writeLE16 sec i v i = v % 256 := by
  unfold writeLE16 updF
  split_ifs <;> omega

theorem writeLE16_eval1 (sec : Sector) (i v : Nat) :
    writeLE16 sec i v (i + 1) = v / 256 % 256 := by
  unfold writeLE16 updF
  split_ifs <;> omega

theorem le16_writeLE16 (sec : Sector) (i v : Nat) :
    le16 (writeLE16 sec i v) i = v % 65536 := by
  unfold le16 byteAt
  rw [writeLE16_eval0, writeLE16_eval1]
  omega

theorem le16_congr (f g : Sector) (i : Nat) (h : ∀ k, k < 2 → f (i + k) = g (i + k)) :
    le16 f i = le16 g i := by
  have h0 := h 0 (by omega)
  have h1 := h 1 (by omega)
  simp only [Nat.add_zero] at h0
  unfold le16 byteAt
  rw [h0, h1]

theorem fat_entry_read_eq (s : FAT32St) (c v : Nat) (sec : Sector)
    (hinit : s.fsInit = true) (hc : 2 ≤ c) (hcoh : cacheOK s)
    (hread : s.disk.readF (fatLbaOf s c) = some sec) :
    fat_entry s c v false =
      (le32 sec (entOffOf s c) % 268435456, loadSt s (fatLbaOf s c) sec) := by
  unfold fat_entry
  rw [if_neg (by simp [hinit]; omega)]
  simp only []
  simp only [fatLbaOf, entOffOf, loadSt] at hread ⊢
  by_cases hmiss : s.fat_cache_valid = false ∨
      s.fat_cache_sector ≠ s.fat_base + c * 4 % 4294967296 / s.sector_size
  · rw [if_pos hmiss, hread]
    rfl
  · rw [if_neg hmiss]
    push_neg at hmiss
    obtain ⟨hval, hsec⟩ := hmiss
    have hv : s.fat_cache_valid = true := by
      cases hx : s.fat_cache_valid
      · exact absurd hx hval
      · rfl
    have hco := hcoh hv
    rw [hsec, hread] at hco
    have hsecEq : sec = s.fat_cache := by injection hco
    subst hsecEq
    conv_rhs => rw [← hsec, ← hv]
    rfl

theorem fat_entry_invalid (s : FAT32St) (c v : Nat) (w : Bool) (h : c < 2) :
    fat_entry s c v w = (INVALID_CLUSTER, s) := by
  unfold fat_entry
  rw [if_pos (Or.inr h)]

theorem cacheOK_loadSt (s : FAT32St) (lba : Nat) (sec : Sector)
    (hread : s.disk.readF lba = some sec) : cacheOK (loadSt s lba sec) := by
  intro _
  exact hread

theorem fat_entry_read_fail (s : FAT32St) (c v : Nat)
    (hinit : s.fsInit = true) (hc : 2 ≤ c)
    (hmiss : s.fat_cache_valid = false ∨ s.fat_cache_sector ≠ fatLbaOf s c)
    (hread : s.disk.readF (fatLbaOf s c) = none) :
    fat_entry s c v false = (INVALID_CLUSTER, { s with fat_cache_valid := false }) := by
  unfold fat_entry
  rw [if_neg (by simp [hinit]; omega)]
  simp only []
  simp only [fatLbaOf] at hmiss hread
  rw [if_pos hmiss, hread]

theorem fat_entry_write_eq (s : FAT32St) (c v : Nat) (sec : Sector)
    (hinit : s.fsInit = true) (hc : 2 ≤ c) (hcoh : cacheOK s)
    (hread : s.disk.readF (fatLbaOf s c) = some sec)
    (hw : s.disk.writeOk (fatLbaOf s c) = true) :
    fat_entry s c v true =
      (v % 268435456,
       { s with
          fat_cache := writeLE32 sec (entOffOf s c)
            (le32 sec (entOffOf s c) / 268435456 * 268435456 + v % 268435456)
          fat_cache_sector := fatLbaOf s c
          fat_cache_valid := true
          disk := storedD s.disk (fatLbaOf s c)
            (writeLE32 sec (entOffOf s c)
              (le32 sec (entOffOf s c) / 268435456 * 268435456 + v % 268435456)) }) := by
  unfold fat_entry
  rw [if_neg (by simp [hinit]; omega)]
  simp only []
  simp only [fatLbaOf, entOffOf] at hread hw ⊢
  have hval : ∀ a : Nat, (a / 268435456 * 268435456 + v % 268435456) % 268435456 =
      v % 268435456 := by
    intro a
    omega
  by_cases hmiss : s.fat_cache_valid = false ∨
      s.fat_cache_sector ≠ s.fat_base + c * 4 % 4294967296 / s.sector_size
  · rw [if_pos hmiss, hread]
    simp only []
    rw [Disk.store_ok _ _ _ hw]
    simp only [storedD, hval]
    rw [if_pos trivial]
  · rw [if_neg hmiss]
    push_neg at hmiss
    obtain ⟨hval2, hsec⟩ := hmiss
    have hv : s.fat_cache_valid = true := by
      cases hx : s.fat_cache_valid
      · exact absurd hx hval2
      · rfl
    have hco := hcoh hv
    rw [hsec, hread] at hco
    have hsecEq : sec = s.fat_cache := by injection hco
    subst hsecEq
    simp only []
    rw [if_pos trivial]
    rw [Disk.store_ok _ _ _ hw]
    simp only [storedD, hval]
    rw [← hsec]
    conv_rhs => rw [← hv]

/-- C6: for every write_block call on an initialized card, the CMD24
address is lba*512 (mod 2^32) for non-SDHC cards and lba for SDHC; once
the command is accepted, a data-response nibble other than 0x05 fails
with SD_WRITE_DATA_FAILS, a busy-poll timeout fails with
SD_WRITE_TIMEOUT_BUSY, a nonzero CMD13 R1 or R2 fails with
SD_WRITE_STATUS_ERROR, and otherwise the call succeeds with SD_OK. -/
theorem sd_write_block_spec_C6 (sd : SDSt) (env : SpiWriteEnv) (lba : Nat)
    (hinit : sd.sdInit = true) :
    ((sd_write_block sd env lba).2.2 =
      some (if sd.card_type = CARD_TYPE_SDHC then lba % 4294967296
            else lba * 512 % 4294967296)) ∧
    (env.r1cmd24 % 256 = 0 → env.dataResp % 256 % 32 ≠ 5 →
      (sd_write_block sd env lba).1 = false ∧
      (sd_write_block sd env lba).2.1 = SD_WRITE_DATA_FAILS) ∧
    (env.r1cmd24 % 256 = 0 → env.dataResp % 256 % 32 = 5 → env.busyOk = false →
      (sd_write_block sd env lba).1 = false ∧
      (sd_write_block sd env lba).2.1 = SD_WRITE_TIMEOUT_BUSY) ∧
    (env.r1cmd24 % 256 = 0 → env.dataResp % 256 % 32 = 5 → env.busyOk = true →
      env.r1cmd13 % 256 ≠ 0 ∨ env.r2 % 256 ≠ 0 →
      (sd_write_block sd env lba).1 = false ∧
      (sd_write_block sd env lba).2.1 = SD_WRITE_STATUS_ERROR) ∧
    (env.r1cmd24 % 256 = 0 → env.dataResp % 256 % 32 = 5 → env.busyOk = true →
      env.r1cmd13 % 256 = 0 → env.r2 % 256 = 0 →
      (sd_write_block sd env lba).1 = true ∧
      (sd_write_block sd env lba).2.1 = SD_OK) := by
  refine ⟨?_, ?_, ?_, ?_, ?_⟩
  · simp only [sd_write_block, hinit]
    norm_num
    split_ifs <;> rfl
  · intro h1 h2
    simp_all [sd_write_block]
  · intro h1 h2 h3
    simp_all [sd_write_block]
  · intro h1 h2 h3 h4
    rcases h4 with h4 | h4 <;> simp_all [sd_write_block]
  · intro h1 h2 h3 h4 h5
    simp_all [sd_write_block]

/-- C6 witness: a concrete successful write on a non-SDHC card. -/
theorem sd_write_block_spec_C6_witness :
    ((sd_write_block sdOK ⟨0, 5, true, 0, 0⟩ 7).2.2 =
      some (if sdOK.card_type = CARD_TYPE_SDHC then 7 % 4294967296
            else 7 * 512 % 4294967296)) ∧
    ((0 : Nat) % 256 = 0 → (5 : Nat) % 256 % 32 ≠ 5 →
      (sd_write_block sdOK ⟨0, 5, true, 0, 0⟩ 7).1 = false ∧
      (sd_write_block sdOK ⟨0, 5, true, 0, 0⟩ 7).2.1 = SD_WRITE_DATA_FAILS) ∧
    ((0 : Nat) % 256 = 0 → (5 : Nat) % 256 % 32 = 5 → true = false →
      (sd_write_block sdOK ⟨0, 5, true, 0, 0⟩ 7).1 = false ∧
      (sd_write_block sdOK ⟨0, 5, true, 0, 0⟩ 7).2.1 = SD_WRITE_TIMEOUT_BUSY) ∧
    ((0 : Nat) % 256 = 0 → (5 : Nat) % 256 % 32 = 5 → true = true →
      (0 : Nat) % 256 ≠ 0 ∨ (0 : Nat) % 256 ≠ 0 →
      (sd_write_block sdOK ⟨0, 5, true, 0, 0⟩ 7).1 = false ∧
      (sd_write_block sdOK ⟨0, 5, true, 0, 0⟩ 7).2.1 = SD_WRITE_STATUS_ERROR) ∧
    ((0 : Nat) % 256 = 0 → (5 : Nat) % 256 % 32 = 5 → true = true →
      (0 : Nat) % 256 = 0 → (0 : Nat) % 256 = 0 →
      (sd_write_block sdOK ⟨0, 5, true, 0, 0⟩ 7).1 = true ∧
      (sd_write_block sdOK ⟨0, 5, true, 0, 0⟩ 7).2.1 = SD_OK) :=
  sd_write_block_spec_C6 sdOK ⟨0, 5, true, 0, 0⟩ 7 rfl

/-- C7: the code filters every entry whose attribute byte has the
volume-ID bit 0x08 before testing for the LFN attribute 0x0F; since
0x0F has that bit set, the parser returns _Error for every entry with
attribute byte 0x0F and never assembles a long-name fragment, leaving
the assembly index untouched.  The concrete conjuncts evaluate the
parser on an LFN entry with ordinal 0x41 (the failing input). -/
theorem fat_filename_parse_lfn_C7 (idx : Nat) (ent : Sector) (buf : Sector)
    (h : byteAt ent 11 = 0x0F) :
    (fat_filename_parse idx ent buf).1 = FileEntryType.F_Error ∧
    (fat_filename_parse idx ent buf).2.1 = idx ∧
    (fat_filename_parse 7 lfnEnt zeroSec).1 = FileEntryType.F_Error ∧
    (fat_filename_parse 7 lfnEnt zeroSec).2.1 = 7 := by
  have hmain : ∀ j b, (fat_filename_parse j ent b).1 = FileEntryType.F_Error ∧
      (fat_filename_parse j ent b).2.1 = j := by
    intro j b
    unfold fat_filename_parse
    rw [h]
    by_cases h0 : byteAt ent 0 ≠ FAT_Config.FILE_CLEAR
    · rw [if_pos h0, if_neg (by simp [FAT_Config.FILE_ERASED]; intro _; decide)]
      exact ⟨rfl, rfl⟩
    · rw [if_neg h0]
      exact ⟨rfl, rfl⟩
  refine ⟨(hmain idx buf).1, (hmain idx buf).2, ?_, ?_⟩
  · decide
  · decide

/-- C7 witness: the failing input itself. -/
theorem fat_filename_parse_lfn_C7_witness :
    (fat_filename_parse 0 lfnEnt zeroSec).1 = FileEntryType.F_Error ∧
    (fat_filename_parse 0 lfnEnt zeroSec).2.1 = 0 ∧
    (fat_filename_parse 7 lfnEnt zeroSec).1 = FileEntryType.F_Error ∧
    (fat_filename_parse 7 lfnEnt zeroSec).2.1 = 7 :=
  fat_filename_parse_lfn_C7 0 lfnEnt zeroSec (by decide)

/-- C3: on a mounted volume, fat_entry(c, v, false) for c at least 2
returns the little-endian 32-bit value at byte offset (c*4) mod
sector_size of FAT sector fat_base + (c*4) / sector_size with the top 4
bits masked off, without changing the medium; fat_entry(c, v, true)
stores the value with the reserved top 4 bits preserved into the cached
sector and immediately writes that sector back (write-through), leaving
all other sectors untouched; a cluster below 2 returns the sentinel
0xFFFFFFFF with the state unchanged; a failed sector load returns the
sentinel and invalidates the cache. -/
theorem fat_entry_spec_C3 (s : FAT32St) (c v : Nat) (sec : Sector)
    (s2 : FAT32St) (c2 v2 : Nat) (c0 v0 : Nat) (w0 : Bool)
    (hinit : s.fsInit = true) (hc : 2 ≤ c) (hc32 : c * 4 < 4294967296)
    (hcoh : cacheOK s)
    (hread : s.disk.readF (s.fat_base + c * 4 / s.sector_size) = some sec)
    (hw : s.disk.writeOk (s.fat_base + c * 4 / s.sector_size) = true)
    (hinit2 : s2.fsInit = true) (hc2 : 2 ≤ c2)
    (hmiss2 : s2.fat_cache_valid = false ∨ s2.fat_cache_sector ≠ fatLbaOf s2 c2)
    (hread2 : s2.disk.readF (fatLbaOf s2 c2) = none)
    (h0 : c0 < 2) :
    (fat_entry s c v false).1 = le32 sec (c * 4 % s.sector_size) % 268435456 ∧
    (fat_entry s c v false).2.disk = s.disk ∧
    (fat_entry s c v true).2.fat_cache =
      writeLE32 sec (c * 4 % s.sector_size)
        (le32 sec (c * 4 % s.sector_size) / 268435456 * 268435456 + v % 268435456) ∧
    (fat_entry s c v true).2.disk.readF (s.fat_base + c * 4 / s.sector_size) =
      some ((fat_entry s c v true).2.fat_cache) ∧
    (∀ l, l ≠ s.fat_base + c * 4 / s.sector_size →
      (fat_entry s c v true).2.disk.readF l = s.disk.readF l) ∧
    (fat_entry s c v true).1 = v % 268435456 ∧
    fat_entry s c0 v0 w0 = (INVALID_CLUSTER, s) ∧
    fat_entry s2 c2 v2 false =
      (INVALID_CLUSTER, { s2 with fat_cache_valid := false }) := by
  have hmod : c * 4 % 4294967296 = c * 4 := Nat.mod_eq_of_lt hc32
  have hlba : fatLbaOf s c = s.fat_base + c * 4 / s.sector_size := by
    unfold fatLbaOf
    rw [hmod]
  have hoff : entOffOf s c = c * 4 % s.sector_size := by
    unfold entOffOf
    rw [hmod]
  rw [← hlba] at hread hw
  have hr := fat_entry_read_eq s c v sec hinit hc hcoh hread
  have hwr := fat_entry_write_eq s c v sec hinit hc hcoh hread hw
  refine ⟨?_, ?_, ?_, ?_, ?_, ?_, ?_, ?_⟩
  · rw [hr, ← hoff]
  · rw [hr]
    rfl
  · rw [hwr, ← hoff]
  · rw [hwr, hlba]
    simp [storedD]
  · intro l hl
    rw [hwr]
    simp only [storedD]
    rw [if_neg (by rw [hlba]; exact hl)]
  · rw [hwr]
  · exact fat_entry_invalid s c0 v0 w0 h0
  · exact fat_entry_read_fail s2 c2 v2 hinit2 hc2 hmiss2 hread2

/-- A device whose every read fails and every write is refused. -/
def diskFail : Disk := { readF := fun _ => none, writeOk := fun _ => false }

/-- A mounted volume over the failing device. -/
def volFail : FAT32St := mkVol diskFail

/-- C3 witness: concrete instantiation on the delete test volume, with
the failing-device volume for the failed-load conjunct. -/
theorem fat_entry_spec_C3_witness :
    (fat_entry volC2 3 7 false).1 =
      le32 (secOfFatEnts fatEntsC2) (3 * 4 % volC2.sector_size) % 268435456 ∧
    (fat_entry volC2 3 7 false).2.disk = volC2.disk ∧
    (fat_entry volC2 3 7 true).2.fat_cache =
      writeLE32 (secOfFatEnts fatEntsC2) (3 * 4 % volC2.sector_size)
        (le32 (secOfFatEnts fatEntsC2) (3 * 4 % volC2.sector_size) / 268435456 *
          268435456 + 7 % 268435456) ∧
    (fat_entry volC2 3 7 true).2.disk.readF (volC2.fat_base + 3 * 4 / volC2.sector_size) =
      some ((fat_entry volC2 3 7 true).2.fat_cache) ∧
    (∀ l, l ≠ volC2.fat_base + 3 * 4 / volC2.sector_size →
      (fat_entry volC2 3 7 true).2.disk.readF l = volC2.disk.readF l) ∧
    (fat_entry volC2 3 7 true).1 = 7 % 268435456 ∧
    fat_entry volC2 1 5 true = (INVALID_CLUSTER, volC2) ∧
    fat_entry volFail 2 0 false =
      (INVALID_CLUSTER, { volFail with fat_cache_valid := false }) :=
  fat_entry_spec_C3 volC2 3 7 (secOfFatEnts fatEntsC2) volFail 2 0 1 5 true
    rfl (by decide) (by decide)
    (by intro h; exact absurd h (by decide))
    rfl rfl rfl (by decide) (Or.inl rfl) rfl (by decide)

theorem fat_scan_free_spec (l : List Nat) : ∀ s : FAT32St,
    s.fsInit = true → cacheOK s → (∀ lba, (s.disk.readF lba).isSome = true) →
    (fat_scan_free s l).2.disk = s.disk ∧
    (∀ x, (fat_scan_free s l).1 = some x →
      ∃ c ∈ l, x = c % 65536 ∧ 2 ≤ c ∧ fatValOnDisk s c = some 0) := by
  induction l with
  | nil =>
    intro s _ _ _
    exact ⟨rfl, by intro x hx; exact absurd hx (by simp [fat_scan_free])⟩
  | cons c rest ih =>
    intro s hinit hcoh hread
    by_cases hc : 2 ≤ c
    · obtain ⟨sec, hsec⟩ := Option.isSome_iff_exists.mp (hread (fatLbaOf s c))
      have hr := fat_entry_read_eq s c 0 sec hinit hc hcoh hsec
      by_cases hz : le32 sec (entOffOf s c) % 268435456 = 0
      · have : fat_scan_free s (c :: rest) = (some (c % 65536), loadSt s (fatLbaOf s c) sec) := by
          unfold fat_scan_free
          rw [hr]
          simp [FAT_Config.CLUSTER_FREE, hz]
        rw [this]
        refine ⟨rfl, ?_⟩
        intro x hx
        refine ⟨c, by simp, ?_, hc, ?_⟩
        · injection hx with h
          exact h.symm
        · unfold fatLbaOf at hsec
          unfold fatValOnDisk
          rw [hsec]
          simp only []
          rw [show entOffOf s c = c * 4 % 4294967296 % s.sector_size from rfl] at hz
          rw [hz]
      · have hstep : fat_scan_free s (c :: rest) =
            fat_scan_free (loadSt s (fatLbaOf s c) sec) rest := by
          conv_lhs => unfold fat_scan_free
          rw [hr]
          simp [FAT_Config.CLUSTER_FREE, hz]
        have ihs := ih (loadSt s (fatLbaOf s c) sec) hinit
          (cacheOK_loadSt s _ sec hsec) hread
        rw [hstep]
        refine ⟨ihs.1, ?_⟩
        intro x hx
        obtain ⟨c', hc', hx', hc2', hv'⟩ := ihs.2 x hx
        exact ⟨c', by simp [hc'], hx', hc2', hv'⟩
    · have hr : fat_entry s c 0 false = (INVALID_CLUSTER, s) :=
        fat_entry_invalid s c 0 false (by omega)
      have hstep : fat_scan_free s (c :: rest) = fat_scan_free s rest := by
        conv_lhs => unfold fat_scan_free
        rw [hr]
        simp [FAT_Config.CLUSTER_FREE, INVALID_CLUSTER]
      rw [hstep]
      obtain ⟨h1, h2⟩ := ih s hinit hcoh hread
      refine ⟨h1, ?_⟩
      intro x hx
      obtain ⟨c', hc', hx', hc2', hv'⟩ := h2 x hx
      exact ⟨c', by simp [hc'], hx', hc2', hv'⟩

/-- All driver-state fields except the FAT cache triple agree (the reads
of a cluster chain walk only move the cache). -/
def sameNonCache (s s' : FAT32St) : Prop :=
  s'.disk = s.disk ∧ s'.fsInit = s.fsInit ∧ s'.sector_size = s.sector_size ∧
  s'.cluster_size = s.cluster_size ∧ s'.fat_base = s.fat_base ∧
  s'.data_base = s.data_base ∧ s'.sectors_per_fat = s.sectors_per_fat ∧
  s'.sectors_in_partition = s.sectors_in_partition ∧
  s'.first_data_sector = s.first_data_sector ∧ s'.last_cluster = s.last_cluster ∧
  s'.root_dir_first_cluster = s.root_dir_first_cluster ∧
  s'.current_dir_cluster = s.current_dir_cluster ∧
  s'.read_handler = s.read_handler ∧ s'.write_handler = s.write_handler ∧
  s'.lfn_index = s.lfn_index

theorem sameNonCache_refl (s : FAT32St) : sameNonCache s s :=
  ⟨rfl, rfl, rfl, rfl, rfl, rfl, rfl, rfl, rfl, rfl, rfl, rfl, rfl, rfl, rfl⟩

theorem sameNonCache_trans {a b c : FAT32St} (h1 : sameNonCache a b)
    (h2 : sameNonCache b c) : sameNonCache a c := by
  obtain ⟨x1, x2, x3, x4, x5, x6, x7, x8, x9, x10, x11, x12, x13, x14, x15⟩ := h1
  obtain ⟨y1, y2, y3, y4, y5, y6, y7, y8, y9, y10, y11, y12, y13, y14, y15⟩ := h2
  exact ⟨y1.trans x1, y2.trans x2, y3.trans x3, y4.trans x4, y5.trans x5,
    y6.trans x6, y7.trans x7, y8.trans x8, y9.trans x9, y10.trans x10,
    y11.trans x11, y12.trans x12, y13.trans x13, y14.trans x14, y15.trans x15⟩

/-- A read-only fat_entry call moves only the cache and keeps cache
coherence. -/
theorem fat_entry_read_pres (s : FAT32St) (c v : Nat) :
    sameNonCache s (fat_entry s c v false).2 ∧
    (cacheOK s → cacheOK (fat_entry s c v false).2) := by
  unfold fat_entry
  by_cases h1 : s.fsInit = false ∨ c < 2
  · rw [if_pos h1]
    exact ⟨sameNonCache_refl s, fun h => h⟩
  · rw [if_neg h1]
    simp only []
    by_cases h2 : s.fat_cache_valid = false ∨
        s.fat_cache_sector ≠ s.fat_base + c * 4 % 4294967296 / s.sector_size
    · rw [if_pos h2]
      cases hr : s.disk.readF (s.fat_base + c * 4 % 4294967296 / s.sector_size) with
      | none =>
        refine ⟨⟨rfl, rfl, rfl, rfl, rfl, rfl, rfl, rfl, rfl, rfl, rfl, rfl, rfl,
          rfl, rfl⟩, ?_⟩
        intro _ h
        exact absurd h (by simp)
      | some sec =>
        refine ⟨⟨rfl, rfl, rfl, rfl, rfl, rfl, rfl, rfl, rfl, rfl, rfl, rfl, rfl,
          rfl, rfl⟩, ?_⟩
        intro _ _
        exact hr
    · rw [if_neg h2]
      exact ⟨sameNonCache_refl s, fun h => h⟩

/-- The free-cluster scan moves only the cache and keeps coherence. -/
theorem fat_scan_free_pres (l : List Nat) : ∀ s : FAT32St,
    sameNonCache s (fat_scan_free s l).2 ∧
    (cacheOK s → cacheOK (fat_scan_free s l).2) := by
  induction l with
  | nil => intro s; exact ⟨sameNonCache_refl s, fun h => h⟩
  | cons c rest ih =>
    intro s
    have hp := fat_entry_read_pres s c 0
    have heq : fat_scan_free s (c :: rest) =
        (if (fat_entry s c 0 false).1 = FAT_Config.CLUSTER_FREE then
          (some (c % 65536), (fat_entry s c 0 false).2)
        else fat_scan_free (fat_entry s c 0 false).2 rest) := rfl
    rw [heq]
    by_cases hz : (fat_entry s c 0 false).1 = FAT_Config.CLUSTER_FREE
    · rw [if_pos hz]
      exact hp
    · rw [if_neg hz]
      obtain ⟨hs, hcoh⟩ := ih (fat_entry s c 0 false).2
      exact ⟨sameNonCache_trans hp.1 hs, fun h => hcoh (hp.2 h)⟩

/-- The body of fat_search_available_cluster once the scan start is
fixed. -/
def fat_search_from (s : FAT32St) (start : Nat) : Nat × FAT32St :=
  match fat_scan_free s (List.range' start (s.last_cluster - start)) with
  | (some r, s1) => (r, s1)
  | (none, s1) =>
    match fat_scan_free s1 (List.range' 2 (start - 2)) with
    | (some r, s2) => (r, s2)
    | (none, s2) => (0, s2)

theorem fat_search_available_cluster_eq (s : FAT32St) (hint : Nat) :
    fat_search_available_cluster s hint =
      fat_search_from s (if 2 ≤ hint % 65536 then hint % 65536 else 2) := rfl

theorem fat_search_from_spec (s : FAT32St) (start : Nat)
    (hinit : s.fsInit = true) (hcoh : cacheOK s)
    (hread : ∀ lba, (s.disk.readF lba).isSome = true)
    (hs2 : 2 ≤ start) (hsle : start ≤ s.last_cluster)
    (hlast : s.last_cluster < 65536) :
    ((fat_search_from s start).1 ≠ 0 →
      2 ≤ (fat_search_from s start).1 ∧
      (fat_search_from s start).1 < s.last_cluster ∧
      fatValOnDisk s (fat_search_from s start).1 = some 0) ∧
    (fat_search_from s start).2.disk = s.disk := by
  have h1 := fat_scan_free_spec (List.range' start (s.last_cluster - start)) s
    hinit hcoh hread
  have hp1 := fat_scan_free_pres (List.range' start (s.last_cluster - start)) s
  unfold fat_search_from
  rcases hr1 : fat_scan_free s (List.range' start (s.last_cluster - start)) with ⟨o1, s1⟩
  rw [hr1] at h1 hp1
  cases o1 with
  | some r =>
    show (r ≠ 0 → 2 ≤ r ∧ r < s.last_cluster ∧ fatValOnDisk s r = some 0) ∧
      s1.disk = s.disk
    obtain ⟨c, hcmem, hrc, hc2, hcv⟩ := h1.2 r rfl
    obtain ⟨hcb1, hcb2⟩ := List.mem_range'_1.mp hcmem
    rw [Nat.add_sub_cancel' hsle] at hcb2
    have hrc2 : r = c := by
      rw [hrc, Nat.mod_eq_of_lt (by omega)]
    refine ⟨fun _ => ?_, h1.1⟩
    rw [hrc2]
    exact ⟨by omega, hcb2, hcv⟩
  | none =>
    have hs1 : sameNonCache s s1 := hp1.1
    have hcoh1 : cacheOK s1 := hp1.2 hcoh
    have hread1 : ∀ lba, (s1.disk.readF lba).isSome = true := by
      intro lba
      rw [hs1.1]
      exact hread lba
    have hinit1 : s1.fsInit = true := by rw [hs1.2.1]; exact hinit
    have h2 := fat_scan_free_spec (List.range' 2 (start - 2)) s1 hinit1 hcoh1 hread1
    have hp2 := fat_scan_free_pres (List.range' 2 (start - 2)) s1
    rcases hr2 : fat_scan_free s1 (List.range' 2 (start - 2)) with ⟨o2, s2⟩
    rw [hr2] at h2 hp2
    have hgoal : (match ((none : Option Nat), s1) with
        | (some r, s1) => (r, s1)
        | (none, s1) =>
          match fat_scan_free s1 (List.range' 2 (start - 2)) with
          | (some r, s2) => (r, s2)
          | (none, s2) => (0, s2)) =
        (match (o2, s2) with
          | (some r, s2) => (r, s2)
          | (none, s2) => ((0 : Nat), s2)) := by
      simp only []
      rw [hr2]
    rw [hgoal]
    cases o2 with
    | some r =>
      show (r ≠ 0 → 2 ≤ r ∧ r < s.last_cluster ∧ fatValOnDisk s r = some 0) ∧
        s2.disk = s.disk
      obtain ⟨c, hcmem, hrc, hc2, hcv⟩ := h2.2 r rfl
      obtain ⟨hcb1, hcb2⟩ := List.mem_range'_1.mp hcmem
      rw [Nat.add_sub_cancel' hs2] at hcb2
      have hrc2 : r = c := by
        rw [hrc, Nat.mod_eq_of_lt (by omega)]
      have hfv : fatValOnDisk s1 c = fatValOnDisk s c := by
        unfold fatValOnDisk
        rw [hs1.1, hs1.2.2.1, hs1.2.2.2.2.1]
      refine ⟨fun _ => ?_, by rw [h2.1, hs1.1]⟩
      rw [hrc2]
      exact ⟨by omega, by omega, by rw [← hfv]; exact hcv⟩
    | none =>
      show ((0 : Nat) ≠ 0 → 2 ≤ (0 : Nat) ∧ (0 : Nat) < s.last_cluster ∧
        fatValOnDisk s 0 = some 0) ∧ s2.disk = s.disk
      exact ⟨fun h => absurd rfl h, by rw [h2.1, hs1.1]⟩

/-- C10 amended: the free-cluster scan is bounded by the 16-bit
last_cluster field (set at mount as (total_clusters + 1) mod 65536), so
whenever it returns a nonzero cluster number, that number is below
last_cluster, hence below 65536, the uint16_t cast is the identity, and
the FAT entry of the returned cluster itself reads back FREE on the
medium: the returned number always equals the cluster that was found
free, and clusters at or beyond the truncated last_cluster bound (in
particular all clusters at or above 65536) are never examined. -/
theorem fat_search_no_alias_C10 (s : FAT32St) (hint : Nat)
    (hinit : s.fsInit = true) (hcoh : cacheOK s)
    (hread : ∀ lba, (s.disk.readF lba).isSome = true)
    (hlast : s.last_cluster < 65536) (hlast2 : 2 ≤ s.last_cluster)
    (hhint : hint % 65536 ≤ s.last_cluster) :
    ((fat_search_available_cluster s hint).1 ≠ 0 →
      2 ≤ (fat_search_available_cluster s hint).1 ∧
      (fat_search_available_cluster s hint).1 < s.last_cluster ∧
      (fat_search_available_cluster s hint).1 % 65536 =
        (fat_search_available_cluster s hint).1 ∧
      fatValOnDisk s (fat_search_available_cluster s hint).1 = some 0) ∧
    (fat_search_available_cluster s hint).2.disk = s.disk := by
  rw [fat_search_available_cluster_eq]
  by_cases h : 2 ≤ hint % 65536
  · rw [if_pos h]
    have := fat_search_from_spec s (hint % 65536) hinit hcoh hread h hhint hlast
    refine ⟨fun hnz => ?_, this.2⟩
    obtain ⟨a, b, c⟩ := this.1 hnz
    exact ⟨a, b, Nat.mod_eq_of_lt (by omega), c⟩
  · rw [if_neg h]
    have := fat_search_from_spec s 2 hinit hcoh hread (by omega) hlast2 hlast
    refine ⟨fun hnz => ?_, this.2⟩
    obtain ⟨a, b, c⟩ := this.1 hnz
    exact ⟨a, b, Nat.mod_eq_of_lt (by omega), c⟩

/-- C10 amended witness: on the truncation test volume the scan from
hint 3 returns cluster 4, which indeed reads back FREE. -/
theorem fat_search_no_alias_C10_witness :
    (((fat_search_available_cluster volC10 3).1 ≠ 0 →
      2 ≤ (fat_search_available_cluster volC10 3).1 ∧
      (fat_search_available_cluster volC10 3).1 < volC10.last_cluster ∧
      (fat_search_available_cluster volC10 3).1 % 65536 =
        (fat_search_available_cluster volC10 3).1 ∧
      fatValOnDisk volC10 (fat_search_available_cluster volC10 3).1 = some 0) ∧
    (fat_search_available_cluster volC10 3).2.disk = volC10.disk) :=
  fat_search_no_alias_C10 volC10 3 rfl
    (by intro h; exact absurd h (by decide))
    (fun _ => rfl) (by decide) (by decide) (by decide)

/-- C10 counterexample: a mounted volume whose medium has 65544 clusters
stores last_cluster = 9; cluster 65540 is marked FREE in the FAT on the
medium, yet the scan from hint 2 returns 0 (no cluster found) because it
never examines clusters at or beyond the truncated bound - the claim
that the scan can return a 16-bit-truncated alias of a found cluster
(65540 mod 65536 = 4) does not occur: the code never returns a number
differing from the cluster it found. -/
theorem fat_search_truncation_cex_C10 :
    volC10.last_cluster = last_cluster_of_total 65544 ∧
    volC10.last_cluster = 9 ∧
    fatValOnDisk volC10 65540 = some 0 ∧
    (fat_search_available_cluster volC10 2).1 = 0 ∧
    65540 % 65536 = 4 ∧
    (fat_search_available_cluster volC10 2).1 ≠ 4 ∧
    (fat_search_available_cluster volC10 2).1 ≠ 65540 := by
  refine ⟨rfl, rfl, ?_, ?_, rfl, ?_, ?_⟩ <;> decide

/-- Count of non-FREE entries over the whole FAT region, the complement
of count_free_clusters. -/
def count_nonfree_fat_entries (s : FAT32St) : Nat :=
  if s.fsInit = false then 0 else
  ((List.range' s.fat_base s.sectors_per_fat).map (fun lba =>
    match s.disk.readF lba with
    | none => 0
    | some sec =>
        ((List.range (s.sector_size / 4)).filter
          (fun e => ¬ le32 sec (4 * e) % 268435456 = 0)).length)).sum

/-- C5 amended: count_free_clusters counts the FREE entries over the
entire FAT region - sectors_per_fat sectors of sector_size/4 entries
each, including the two reserved entries and every entry beyond the last
usable cluster - so free count plus non-free count equals the total
number of FAT entries in the region, not the number of usable clusters
of the volume. -/
theorem count_free_region_C5 (s : FAT32St) (hinit : s.fsInit = true)
    (hread : ∀ lba, lba ∈ List.range' s.fat_base s.sectors_per_fat →
      (s.disk.readF lba).isSome = true) :
    count_free_clusters s + count_nonfree_fat_entries s =
      s.sectors_per_fat * (s.sector_size / 4) := by
  unfold count_free_clusters count_nonfree_fat_entries
  rw [if_neg (by simp [hinit]), if_neg (by simp [hinit])]
  have hgen : ∀ l : List Nat, (∀ lba, lba ∈ l → (s.disk.readF lba).isSome = true) →
      (l.map (fun lba =>
        match s.disk.readF lba with
        | none => 0
        | some sec =>
            ((List.range (s.sector_size / 4)).filter
              (fun e => le32 sec (4 * e) % 268435456 = 0)).length)).sum +
      (l.map (fun lba =>
        match s.disk.readF lba with
        | none => 0
        | some sec =>
            ((List.range (s.sector_size / 4)).filter
              (fun e => ¬ le32 sec (4 * e) % 268435456 = 0)).length)).sum =
      l.length * (s.sector_size / 4) := by
    intro l
    induction l with
    | nil => intro _; simp
    | cons lba rest ih =>
      intro hmem
      obtain ⟨sec, hsec⟩ := Option.isSome_iff_exists.mp (hmem lba (by simp))
      simp only [List.map_cons, List.sum_cons, hsec, List.length_cons]
      have hrest := ih (fun x hx => hmem x (by simp [hx]))
      have hsplit : ((List.range (s.sector_size / 4)).filter
            (fun e => le32 sec (4 * e) % 268435456 = 0)).length +
          ((List.range (s.sector_size / 4)).filter
            (fun e => ¬ le32 sec (4 * e) % 268435456 = 0)).length =
          s.sector_size / 4 := by
        have hthis := List.length_eq_length_filter_add
          (l := List.range (s.sector_size / 4))
          (fun e => decide (le32 sec (4 * e) % 268435456 = 0))
        rw [List.length_range] at hthis
        have hpred : (List.range (s.sector_size / 4)).filter
            (fun e => ¬ le32 sec (4 * e) % 268435456 = 0) =
            (List.range (s.sector_size / 4)).filter
            (fun e => ! decide (le32 sec (4 * e) % 268435456 = 0)) := by
          congr 1
          funext e
          simp [decide_not]
        rw [hpred]
        omega
      rw [Nat.succ_mul]
      omega
  have := hgen (List.range' s.fat_base s.sectors_per_fat) hread
  rw [List.length_range'] at this
  exact this

set_option maxRecDepth 40000 in
/-- C5 counterexample: a freshly mounted empty volume (one FAT sector,
one-sector clusters, ten usable data clusters, only the root directory
chain - cluster 2 - allocated).  count_free_clusters counts 125 FREE
entries (all 128 entries of the FAT sector except the two reserved
entries and the root EOC), the only live chain holds 1 cluster, and the
volume has 10 usable clusters, so free + in-use is 126, not 10. -/
theorem count_free_invariant_cex_C5 :
    count_free_clusters volC5 = 125 ∧
    chainListD volC5 20 volC5.root_dir_first_cluster = [2] ∧
    get_total_space volC5 = 5120 ∧
    get_total_space volC5 / (volC5.cluster_size * volC5.sector_size) = 10 ∧
    count_free_clusters volC5 +
      (chainListD volC5 20 volC5.root_dir_first_cluster).length ≠
      get_total_space volC5 / (volC5.cluster_size * volC5.sector_size) := by
  refine ⟨?_, ?_, ?_, ?_, ?_⟩ <;> decide

/-- C5 amended witness: on the same volume, 125 free plus 3 non-free
entries is the 128 entries of the single FAT sector. -/
theorem count_free_region_C5_witness :
    count_free_clusters volC5 + count_nonfree_fat_entries volC5 =
      volC5.sectors_per_fat * (volC5.sector_size / 4) :=
  count_free_region_C5 volC5 rfl (fun _ _ => rfl)

/-- C9 amended: only a leading dot-dot (the first path component after
discarding leading single-dot components) is rejected, with
FILE_NOT_FOUND and no state change; single-dot components are dropped
during tokenization (concrete conjunct: opening "./A.TXT" finds A.TXT).
A dot-dot later in the path is not rejected - see the counterexample
theorem, where it resolves through the on-disk dot-dot entry. -/
theorem file_open_leading_dotdot_C9 (fuel : Nat) (s : FAT32St)
    (path : List Nat) (fn : FileFunction)
    (h : ((tokenize (if path.headD 0 = 47 then path.tail else path)).dropWhile
        (fun t => t = [46])).headD [] = [46, 46]) :
    file_open fuel s path fn = (.FILE_NOT_FOUND, s) ∧
    (file_open 20 volC9 pathDotA .READ).1 = FAT_ErrorCode.FILE_FOUND := by
  refine ⟨?_, by decide⟩
  unfold file_open
  by_cases h0 : s.fsInit = false ∨ path = []
  · rw [if_pos h0]
  · rw [if_neg h0]
    simp only []
    have htoks : tokenize (if path.headD 0 = 47 then path.tail else path) ≠ [] := by
      intro he
      rw [he] at h
      simp [List.dropWhile] at h
    rw [if_neg htoks, if_pos h]

/-- C9 counterexample: on a volume whose subdirectory SUB carries the
usual on-disk dot and dot-dot entries, opening "SUB/../A.TXT" for read
succeeds (the dot-dot component matches the stored dot-dot entry and
descends into its first cluster, the parent), initializing the read
handler from the A.TXT entry found in the root - the claim says any
path containing a dot-dot component fails with FILE_NOT_FOUND and that
dot-dot is never resolved as a directory.  Only a leading dot-dot
("../A.TXT") is rejected. -/
theorem file_open_dotdot_cex_C9 :
    (file_open 20 volC9 pathDD .READ).1 = FAT_ErrorCode.FILE_FOUND ∧
    (file_open 20 volC9 pathDD .READ).2.read_handler.File_Size = 5 ∧
    (file_open 20 volC9 pathUpA .READ).1 = FAT_ErrorCode.FILE_NOT_FOUND := by
  refine ⟨?_, ?_, ?_⟩ <;> decide

/-- C9 witness: the rejection applies to the concrete path "../A.TXT" on
the concrete volume. -/
theorem file_open_leading_dotdot_C9_witness :
    file_open 20 volC9 pathUpA .READ = (.FILE_NOT_FOUND, volC9) ∧
    (file_open 20 volC9 pathDotA .READ).1 = FAT_ErrorCode.FILE_FOUND :=
  file_open_leading_dotdot_C9 20 volC9 pathUpA .READ (by decide)

/-- Create, write 35 bytes in one call, close. -/
def c4closed : FAT32St :=
  file_close (file_write 20 (file_open 20 vol0 pathA .CREATE).2 D35)

/-- Reopen the 35-byte file for read. -/
def c4reopen : FAT_ErrorCode × FAT32St := file_open 20 c4closed pathA .READ

/-- First read after reopening. -/
def c4read1 : Nat × List Nat × FAT32St := file_read c4reopen.2

/-- Second read after reopening. -/
def c4read2 : Nat × List Nat × FAT32St := file_read c4read1.2.2

/-- C4: with S > 0 bytes remaining, one file_read call returns exactly
min(512, S) bytes, namely the first bytes of the sector at
data_base + (cluster - 2) * cluster_size + sector_offset; it decrements
the remaining size by that amount and advances the sector offset; on
crossing the cluster boundary it moves the handle to the FAT successor,
and a successor outside the live range 2..EOC_MIN zeroes the remaining
size; with 0 bytes remaining every call returns 0 and changes nothing.
The final conjuncts run the concrete 35-byte scenario: after create,
one 35-byte write, close and reopen, the first read returns exactly the
35 written bytes and the next read returns 0. -/
theorem file_read_spec_C4 (s : FAT32St) (sec : Sector) (nxt : Nat) (s0 : FAT32St)
    (hinit : s.fsInit = true)
    (hS : 0 < s.read_handler.File_Size)
    (hfc2 : 2 ≤ s.read_handler.FAT_Entry)
    (hfc4 : s.read_handler.FAT_Entry < 4294967296)
    (hsm : s.data_base + (s.read_handler.FAT_Entry - 2) * s.cluster_size +
      s.read_handler.SectorOffset < 4294967296)
    (hread : s.disk.readF (s.data_base +
      (s.read_handler.FAT_Entry - 2) * s.cluster_size +
      s.read_handler.SectorOffset) = some sec)
    (hcoh : cacheOK s)
    (hfat : s.disk.readF (fatLbaOf s s.read_handler.FAT_Entry) ≠ none)
    (hnext : fatValOnDisk s s.read_handler.FAT_Entry = some nxt)
    (hinit0 : s0.fsInit = true) (hS0 : s0.read_handler.File_Size = 0) :
    (file_read s).1 = min 512 s.read_handler.File_Size ∧
    (file_read s).2.1 = (List.range (min 512 s.read_handler.File_Size)).map
      (fun i => byteAt sec i) ∧
    (s.read_handler.SectorOffset + 1 < s.cluster_size →
      (file_read s).2.2.read_handler =
        { s.read_handler with
            File_Size := s.read_handler.File_Size - min 512 s.read_handler.File_Size
            SectorOffset := s.read_handler.SectorOffset + 1 }) ∧
    (s.cluster_size ≤ s.read_handler.SectorOffset + 1 →
      (file_read s).2.2.read_handler.SectorOffset = 0 ∧
      (file_read s).2.2.read_handler.FAT_Entry = nxt ∧
      (FAT32_Cluster.EOC_MIN ≤ nxt ∨ nxt < 2 →
        (file_read s).2.2.read_handler.File_Size = 0) ∧
      (2 ≤ nxt ∧ nxt < FAT32_Cluster.EOC_MIN →
        (file_read s).2.2.read_handler.File_Size =
          s.read_handler.File_Size - min 512 s.read_handler.File_Size)) ∧
    file_read s0 = (0, [], s0) ∧
    c4reopen.1 = FAT_ErrorCode.FILE_FOUND ∧
    c4reopen.2.read_handler.File_Size = 35 ∧
    c4read1.1 = 35 ∧
    c4read1.2.1 = D35 ∧
    c4read2.1 = 0 := by
  have heof : file_read s0 = (0, [], s0) := by
    unfold file_read
    rw [if_neg (by simp [hinit0])]
    simp only []
    rw [if_pos hS0]
  have haddr : (s.data_base +
      (s.read_handler.FAT_Entry + 4294967296 - 2) % 4294967296 * s.cluster_size +
      s.read_handler.SectorOffset) % 4294967296 =
      s.data_base + (s.read_handler.FAT_Entry - 2) * s.cluster_size +
      s.read_handler.SectorOffset := by
    have h1 : (s.read_handler.FAT_Entry + 4294967296 - 2) % 4294967296 =
        s.read_handler.FAT_Entry - 2 := by omega
    rw [h1]
    omega
  have hbtr : (if s.read_handler.File_Size < FAT_Config.SECTOR_SIZE then
      s.read_handler.File_Size else FAT_Config.SECTOR_SIZE) =
      min 512 s.read_handler.File_Size := by
    unfold FAT_Config.SECTOR_SIZE
    split_ifs with h <;> omega
  obtain ⟨fsec, hfsec⟩ := Option.ne_none_iff_exists'.mp hfat
  have hnxtval : nxt = le32 fsec (entOffOf s s.read_handler.FAT_Entry) % 268435456 := by
    unfold fatValOnDisk at hnext
    unfold fatLbaOf at hfsec
    rw [hfsec] at hnext
    simp only [] at hnext
    injection hnext with h
    exact h.symm
  have hfr := fat_entry_read_eq { s with read_handler :=
      { s.read_handler with
          File_Size := s.read_handler.File_Size - min 512 s.read_handler.File_Size
          SectorOffset := s.read_handler.SectorOffset + 1 } }
    s.read_handler.FAT_Entry 0 fsec hinit hfc2 hcoh hfsec
  have hrun : file_read s = (min 512 s.read_handler.File_Size,
      (List.range (min 512 s.read_handler.File_Size)).map (fun i => byteAt sec i),
      if s.cluster_size ≤ s.read_handler.SectorOffset + 1 then
        (let h2 : ReadHandler :=
          { s.read_handler with
              File_Size := s.read_handler.File_Size - min 512 s.read_handler.File_Size
              SectorOffset := 0
              FAT_Entry := nxt }
         let h3 := if FAT32_Cluster.EOC_MIN ≤ nxt ∨ nxt < 2 then
            { h2 with File_Size := 0 } else h2
         { (loadSt { s with read_handler :=
              { s.read_handler with
                  File_Size := s.read_handler.File_Size - min 512 s.read_handler.File_Size
                  SectorOffset := s.read_handler.SectorOffset + 1 } }
            (fatLbaOf s s.read_handler.FAT_Entry) fsec) with read_handler := h3 })
      else
        { s with read_handler :=
          { s.read_handler with
              File_Size := s.read_handler.File_Size - min 512 s.read_handler.File_Size
              SectorOffset := s.read_handler.SectorOffset + 1 } }) := by
    unfold file_read
    rw [if_neg (by simp [hinit])]
    simp only []
    rw [if_neg (by omega)]
    rw [hbtr, haddr, hread]
    simp only []
    by_cases hcross : s.cluster_size ≤ s.read_handler.SectorOffset + 1
    · rw [if_pos hcross, if_pos hcross]
      rw [hfr]
      simp only []
      rw [hnxtval]
      rfl
    · rw [if_neg hcross, if_neg hcross]
  refine ⟨?_, ?_, ?_, ?_, heof, ?_, ?_, ?_, ?_, ?_⟩
  · rw [hrun]
  · rw [hrun]
  · intro hnc
    rw [hrun]
    simp only []
    rw [if_neg (by omega)]
  · intro hcross
    rw [hrun]
    simp only []
    rw [if_pos hcross]
    by_cases hterm : FAT32_Cluster.EOC_MIN ≤ nxt ∨ nxt < 2
    · rw [if_pos hterm]
      exact ⟨rfl, rfl, fun _ => rfl, fun hh => by omega⟩
    · rw [if_neg hterm]
      exact ⟨rfl, rfl, fun hh => absurd hh hterm, fun _ => rfl⟩
  · decide
  · decide
  · decide
  · decide
  · decide

/-- The delete test volume with a read handler opened on B.BIN. -/
def volC2r : FAT32St := { volC2 with read_handler := ⟨0, 1500, 3, 0⟩ }

/-- C4 witness: one read of the 1500-byte handler at cluster 3 returns
512 zero bytes and advances the cursor; vol0 carries the zero-size
handler for the EOF conjunct. -/
theorem file_read_spec_C4_witness :
    (file_read volC2r).1 = min 512 volC2r.read_handler.File_Size ∧
    (file_read volC2r).2.1 = (List.range (min 512 volC2r.read_handler.File_Size)).map
      (fun i => byteAt zeroSec i) ∧
    (volC2r.read_handler.SectorOffset + 1 < volC2r.cluster_size →
      (file_read volC2r).2.2.read_handler =
        { volC2r.read_handler with
            File_Size := volC2r.read_handler.File_Size -
              min 512 volC2r.read_handler.File_Size
            SectorOffset := volC2r.read_handler.SectorOffset + 1 }) ∧
    (volC2r.cluster_size ≤ volC2r.read_handler.SectorOffset + 1 →
      (file_read volC2r).2.2.read_handler.SectorOffset = 0 ∧
      (file_read volC2r).2.2.read_handler.FAT_Entry = 4 ∧
      (FAT32_Cluster.EOC_MIN ≤ 4 ∨ (4 : Nat) < 2 →
        (file_read volC2r).2.2.read_handler.File_Size = 0) ∧
      ((2 : Nat) ≤ 4 ∧ (4 : Nat) < FAT32_Cluster.EOC_MIN →
        (file_read volC2r).2.2.read_handler.File_Size =
          volC2r.read_handler.File_Size - min 512 volC2r.read_handler.File_Size)) ∧
    file_read vol0 = (0, [], vol0) ∧
    c4reopen.1 = FAT_ErrorCode.FILE_FOUND ∧
    c4reopen.2.read_handler.File_Size = 35 ∧
    c4read1.1 = 35 ∧
    c4read1.2.1 = D35 ∧
    c4read2.1 = 0 :=
  file_read_spec_C4 volC2r zeroSec 4 vol0 rfl (by decide) (by decide) (by decide)
    (by decide) rfl (by intro h; exact absurd h (by decide))
    (by intro h; exact Option.noConfusion h) (by decide) rfl rfl

theorem entRange_disjoint (s : FAT32St) (x c : Nat) (hss : s.sector_size = 512)
    (hx : x < 268435456) (hc : c < 268435456) (hne : x ≠ c)
    (hlba : fatLbaOf s x = fatLbaOf s c) :
    entOffOf s x + 4 ≤ entOffOf s c ∨ entOffOf s c + 4 ≤ entOffOf s x := by
  unfold fatLbaOf at hlba
  unfold entOffOf
  rw [hss] at hlba ⊢
  have hx4 : x * 4 % 4294967296 = x * 4 := Nat.mod_eq_of_lt (by omega)
  have hc4 : c * 4 % 4294967296 = c * 4 := Nat.mod_eq_of_lt (by omega)
  rw [hx4, hc4] at hlba ⊢
  omega

theorem fatVal_storedD (s : FAT32St) (lba : Nat) (nsec : Sector) (x : Nat)
    (t : FAT32St) (ht : t.disk = storedD s.disk lba nsec)
    (hfb : t.fat_base = s.fat_base) (hss : t.sector_size = s.sector_size) :
    (fatLbaOf s x ≠ lba → fatValOnDisk t x = fatValOnDisk s x) ∧
    (fatLbaOf s x = lba →
      fatValOnDisk t x = some (le32 nsec (entOffOf s x) % 268435456)) := by
  constructor
  · intro hne
    unfold fatValOnDisk
    rw [ht, hfb, hss]
    unfold storedD
    simp only []
    rw [if_neg (by unfold fatLbaOf at hne; exact hne)]
  · intro heq
    unfold fatValOnDisk
    rw [ht, hfb, hss]
    unfold storedD
    simp only []
    rw [if_pos (by unfold fatLbaOf at heq; exact heq)]
    rfl

theorem chainListD_eq (s : FAT32St) (n v : Nat) :
    chainListD s (n + 1) v =
      (if 2 ≤ v ∧ v < FAT32_Cluster.EOC_MIN then
        v :: (match fatValOnDisk s v with
              | none => []
              | some w => chainListD s n w)
      else []) := rfl

theorem chainReachesEnd_eq (s : FAT32St) (n v : Nat) :
    chainReachesEnd s (n + 1) v =
      (if 2 ≤ v ∧ v < FAT32_Cluster.EOC_MIN then
        (match fatValOnDisk s v with
         | none => false
         | some w => chainReachesEnd s n w)
      else true) := rfl

theorem chainListD_live (s : FAT32St) : ∀ (fuel v : Nat),
    ∀ x ∈ chainListD s fuel v, 2 ≤ x ∧ x < FAT32_Cluster.EOC_MIN := by
  intro fuel
  induction fuel with
  | zero =>
    intro v x hx
    exact absurd hx (by simp [chainListD])
  | succ n ih =>
    intro v x hx
    rw [chainListD_eq] at hx
    by_cases hlive : 2 ≤ v ∧ v < FAT32_Cluster.EOC_MIN
    · rw [if_pos hlive] at hx
      rcases List.mem_cons.mp hx with h | h
      · subst h
        exact hlive
      · cases hfv : fatValOnDisk s v with
        | none =>
          rw [hfv] at h
          exact absurd h (by simp)
        | some w =>
          rw [hfv] at h
          exact ih w x h
    · rw [if_neg hlive] at hx
      exact absurd hx (by simp)

theorem chain_congr (s s2 : FAT32St) (c : Nat)
    (hagree : ∀ x, 2 ≤ x → x < FAT32_Cluster.EOC_MIN → x ≠ c →
      fatValOnDisk s2 x = fatValOnDisk s x) :
    ∀ fuel v, c ∉ chainListD s fuel v →
      chainListD s2 fuel v = chainListD s fuel v ∧
      (chainReachesEnd s fuel v = true → chainReachesEnd s2 fuel v = true) := by
  intro fuel
  induction fuel with
  | zero => intro v _; exact ⟨rfl, fun h => h⟩
  | succ n ih =>
    intro v hnotin
    rw [chainListD_eq, chainListD_eq, chainReachesEnd_eq, chainReachesEnd_eq]
    by_cases hlive : 2 ≤ v ∧ v < FAT32_Cluster.EOC_MIN
    · have hvne : v ≠ c := by
        intro he
        subst he
        apply hnotin
        rw [chainListD_eq, if_pos hlive]
        simp
      have hag := hagree v hlive.1 hlive.2 hvne
      rw [if_pos hlive, if_pos hlive, if_pos hlive, if_pos hlive, hag]
      cases hfv : fatValOnDisk s v with
      | none => exact ⟨rfl, fun h => h⟩
      | some w =>
        have hnotinw : c ∉ chainListD s n w := by
          intro hin
          apply hnotin
          rw [chainListD_eq, if_pos hlive, hfv]
          simp [hin]
        obtain ⟨ihl, ihr⟩ := ih w hnotinw
        refine ⟨?_, ?_⟩
        · show v :: chainListD s2 n w = v :: chainListD s n w
          rw [ihl]
        · show chainReachesEnd s n w = true → chainReachesEnd s2 n w = true
          exact ihr
    · rw [if_neg hlive, if_neg hlive, if_neg hlive, if_neg hlive]
      exact ⟨rfl, fun _ => rfl⟩

theorem le32_lt (sec : Sector) (i : Nat) : le32 sec i < 4294967296 := by
  unfold le32 byteAt
  have h0 : sec i % 256 < 256 := Nat.mod_lt _ (by decide)
  have h1 : sec (i + 1) % 256 < 256 := Nat.mod_lt _ (by decide)
  have h2 : sec (i + 2) % 256 < 256 := Nat.mod_lt _ (by decide)
  have h3 : sec (i + 3) % 256 < 256 := Nat.mod_lt _ (by decide)
  omega

theorem fatValOnDisk_read (s : FAT32St) (x : Nat) (sec : Sector)
    (h : s.disk.readF (fatLbaOf s x) = some sec) :
    fatValOnDisk s x = some (le32 sec (entOffOf s x) % 268435456) := by
  unfold fatValOnDisk
  unfold fatLbaOf at h
  rw [h]
  rfl

/-- The FAT sector content after fat_entry writes FREE into the entry of
cluster c (the body of one freeChainLoop iteration). -/
def nsecOf (s : FAT32St) (c : Nat) (sec : Sector) : Sector :=
  writeLE32 sec (entOffOf s c)
    (le32 sec (entOffOf s c) / 268435456 * 268435456 +
      FAT_Config.CLUSTER_FREE % 268435456)

/-- Driver state after one freeChainLoop iteration on a live cluster. -/
def stepSt (s : FAT32St) (c : Nat) (sec : Sector) : FAT32St :=
  { s with
      fat_cache := nsecOf s c sec
      fat_cache_sector := fatLbaOf s c
      fat_cache_valid := true
      disk := storedD s.disk (fatLbaOf s c) (nsecOf s c sec) }

theorem freeChainLoop_eq (fuel : Nat) (s : FAT32St) (c : Nat) :
    freeChainLoop (fuel + 1) s c =
      if 2 ≤ c ∧ c < FAT32_Cluster.EOC_MIN then
        freeChainLoop fuel
          (fat_entry (fat_entry s c 0 false).2 c FAT_Config.CLUSTER_FREE true).2
          (fat_entry s c 0 false).1
      else s := rfl

theorem freeStep_eq (fuel : Nat) (s : FAT32St) (c : Nat) (sec : Sector)
    (hinit : s.fsInit = true) (hlive : 2 ≤ c ∧ c < FAT32_Cluster.EOC_MIN)
    (hcoh : cacheOK s)
    (hread : s.disk.readF (fatLbaOf s c) = some sec)
    (hw : s.disk.writeOk (fatLbaOf s c) = true) :
    freeChainLoop (fuel + 1) s c =
      freeChainLoop fuel (stepSt s c sec) (le32 sec (entOffOf s c) % 268435456) := by
  rw [freeChainLoop_eq, if_pos hlive]
  rw [fat_entry_read_eq s c 0 sec hinit hlive.1 hcoh hread]
  show freeChainLoop fuel
      (fat_entry (loadSt s (fatLbaOf s c) sec) c FAT_Config.CLUSTER_FREE true).2
      (le32 sec (entOffOf s c) % 268435456) = _
  rw [fat_entry_write_eq (loadSt s (fatLbaOf s c) sec) c FAT_Config.CLUSTER_FREE sec
    hinit hlive.1 (cacheOK_loadSt s (fatLbaOf s c) sec hread) hread hw]
  rfl

theorem stepSt_facts (s : FAT32St) (c : Nat) (sec : Sector)
    (hss : s.sector_size = 512) (hc : c < 268435456)
    (hread : s.disk.readF (fatLbaOf s c) = some sec)
    (hreads : ∀ lba, (s.disk.readF lba).isSome = true) :
    fatValOnDisk (stepSt s c sec) c = some 0 ∧
    (∀ x, x < 268435456 → x ≠ c →
      fatValOnDisk (stepSt s c sec) x = fatValOnDisk s x) ∧
    (∀ lba off, (fatLbaOf s c = lba → off < entOffOf s c ∨ entOffOf s c + 4 ≤ off) →
      ((stepSt s c sec).disk.readF lba).map (fun g => g off) =
        (s.disk.readF lba).map (fun g => g off)) ∧
    cacheOK (stepSt s c sec) ∧
    (∀ lba, ((stepSt s c sec).disk.readF lba).isSome = true) := by
  refine ⟨?_, ?_, ?_, ?_, ?_⟩
  · have h1 := (fatVal_storedD s (fatLbaOf s c) (nsecOf s c sec) c
      (stepSt s c sec) rfl rfl rfl).2 rfl
    rw [h1]
    have hval : le32 (nsecOf s c sec) (entOffOf s c) % 268435456 = 0 := by
      unfold nsecOf
      rw [le32_writeLE32]
      have hraw := le32_lt sec (entOffOf s c)
      simp only [FAT_Config.CLUSTER_FREE]
      omega
    rw [hval]
  · intro x hx hxc
    by_cases hlba : fatLbaOf s x = fatLbaOf s c
    · have hd := entRange_disjoint s x c hss hx hc hxc hlba
      have h2 := (fatVal_storedD s (fatLbaOf s c) (nsecOf s c sec) x
        (stepSt s c sec) rfl rfl rfl).2 hlba
      rw [h2]
      have hsx : fatValOnDisk s x = some (le32 sec (entOffOf s x) % 268435456) := by
        apply fatValOnDisk_read
        rw [hlba]
        exact hread
      rw [hsx]
      have hle : le32 (nsecOf s c sec) (entOffOf s x) = le32 sec (entOffOf s x) := by
        apply le32_congr
        intro k hk
        unfold nsecOf
        apply writeLE32_frame <;> omega
      rw [hle]
    · exact (fatVal_storedD s (fatLbaOf s c) (nsecOf s c sec) x
        (stepSt s c sec) rfl rfl rfl).1 hlba
  · intro lba off hcond
    show ((storedD s.disk (fatLbaOf s c) (nsecOf s c sec)).readF lba).map (fun g => g off)
        = (s.disk.readF lba).map (fun g => g off)
    unfold storedD
    simp only []
    by_cases hlba : lba = fatLbaOf s c
    · subst hlba
      rw [if_pos rfl, hread]
      have hrange := hcond rfl
      show some (nsecOf s c sec off) = some (sec off)
      have hfr : nsecOf s c sec off = sec off := by
        unfold nsecOf
        apply writeLE32_frame <;> omega
      rw [hfr]
    · rw [if_neg hlba]
  · intro _
    show (storedD s.disk (fatLbaOf s c) (nsecOf s c sec)).readF (fatLbaOf s c) =
      some (nsecOf s c sec)
    unfold storedD
    simp only []
    rw [if_pos trivial]
  · intro lba
    show ((storedD s.disk (fatLbaOf s c) (nsecOf s c sec)).readF lba).isSome = true
    unfold storedD
    simp only []
    by_cases hlba : lba = fatLbaOf s c
    · rw [if_pos hlba]
      rfl
    · rw [if_neg hlba]
      exact hreads lba

theorem fatValOnDisk_congr (s t : FAT32St) (x : Nat)
    (hfb : t.fat_base = s.fat_base) (hss2 : t.sector_size = s.sector_size)
    (hbytes : ∀ k, k < 4 →
      (t.disk.readF (fatLbaOf s x)).map (fun g => g (entOffOf s x + k)) =
      (s.disk.readF (fatLbaOf s x)).map (fun g => g (entOffOf s x + k))) :
    fatValOnDisk t x = fatValOnDisk s x := by
  unfold fatValOnDisk
  rw [hfb, hss2]
  cases hs : s.disk.readF (s.fat_base + x * 4 % 4294967296 / s.sector_size) with
  | none =>
    cases ht : t.disk.readF (s.fat_base + x * 4 % 4294967296 / s.sector_size) with
    | none => rfl
    | some g =>
      have hb := hbytes 0 (by decide)
      unfold fatLbaOf at hb
      rw [hs, ht] at hb
      exact absurd hb (by simp)
  | some g =>
    cases ht : t.disk.readF (s.fat_base + x * 4 % 4294967296 / s.sector_size) with
    | none =>
      have hb := hbytes 0 (by decide)
      unfold fatLbaOf at hb
      rw [hs, ht] at hb
      exact absurd hb (by simp)
    | some g2 =>
      have hle : le32 g2 (x * 4 % 4294967296 % s.sector_size) =
          le32 g (x * 4 % 4294967296 % s.sector_size) := by
        apply le32_congr
        intro k hk
        have hb := hbytes k hk
        unfold fatLbaOf at hb
        rw [hs, ht] at hb
        unfold entOffOf at hb
        simpa using hb
      show some (le32 g2 (x * 4 % 4294967296 % s.sector_size) % 268435456) =
        some (le32 g (x * 4 % 4294967296 % s.sector_size) % 268435456)
      rw [hle]

theorem freeChainLoop_spec : ∀ (fuel : Nat) (s : FAT32St) (c : Nat),
    s.fsInit = true → cacheOK s → s.sector_size = 512 →
    (∀ lba, (s.disk.readF lba).isSome = true) →
    (∀ lba, s.disk.writeOk lba = true) →
    chainReachesEnd s fuel c = true →
    (chainListD s fuel c).Nodup →
    (∀ x ∈ chainListD s fuel c, fatValOnDisk (freeChainLoop fuel s c) x = some 0) ∧
    (∀ lba off, (∀ x ∈ chainListD s fuel c,
        fatLbaOf s x = lba → off < entOffOf s x ∨ entOffOf s x + 4 ≤ off) →
      ((freeChainLoop fuel s c).disk.readF lba).map (fun g => g off) =
        (s.disk.readF lba).map (fun g => g off)) ∧
    (freeChainLoop fuel s c).fsInit = true ∧
    (freeChainLoop fuel s c).sector_size = 512 ∧
    (freeChainLoop fuel s c).fat_base = s.fat_base ∧
    (freeChainLoop fuel s c).data_base = s.data_base ∧
    (freeChainLoop fuel s c).cluster_size = s.cluster_size ∧
    (freeChainLoop fuel s c).read_handler = s.read_handler ∧
    (freeChainLoop fuel s c).write_handler = s.write_handler ∧
    (freeChainLoop fuel s c).disk.writeOk = s.disk.writeOk ∧
    (∀ lba, ((freeChainLoop fuel s c).disk.readF lba).isSome = true) ∧
    cacheOK (freeChainLoop fuel s c) := by
  intro fuel
  induction fuel with
  | zero =>
    intro s c hinit hcoh hss hreads hwrites hend hnodup
    refine ⟨?_, ?_, hinit, hss, rfl, rfl, rfl, rfl, rfl, rfl, hreads, hcoh⟩
    · intro x hx
      exact absurd hx (List.not_mem_nil x)
    · intro lba off _
      rfl
  | succ n ih =>
    intro s c hinit hcoh hss hreads hwrites hend hnodup
    by_cases hlive : 2 ≤ c ∧ c < FAT32_Cluster.EOC_MIN
    · obtain ⟨sec, hsec⟩ := Option.isSome_iff_exists.mp (hreads (fatLbaOf s c))
      have hcb : c < 268435456 := by
        have h := hlive.2
        unfold FAT32_Cluster.EOC_MIN at h
        omega
      have hfv : fatValOnDisk s c = some (le32 sec (entOffOf s c) % 268435456) :=
        fatValOnDisk_read s c sec hsec
      have hcl : chainListD s (n + 1) c =
          c :: chainListD s n (le32 sec (entOffOf s c) % 268435456) := by
        rw [chainListD_eq, if_pos hlive, hfv]
      have hre : chainReachesEnd s n (le32 sec (entOffOf s c) % 268435456) = true := by
        rw [chainReachesEnd_eq, if_pos hlive, hfv] at hend
        exact hend
      rw [hcl] at hnodup
      have hcnot : c ∉ chainListD s n (le32 sec (entOffOf s c) % 268435456) :=
        (List.nodup_cons.mp hnodup).1
      have hnd2 := (List.nodup_cons.mp hnodup).2
      have hstep := freeStep_eq n s c sec hinit hlive hcoh hsec (hwrites (fatLbaOf s c))
      obtain ⟨hs1, hs2, hs3, hs4, hs5⟩ := stepSt_facts s c sec hss hcb hsec hreads
      have hagree : ∀ x, 2 ≤ x → x < FAT32_Cluster.EOC_MIN → x ≠ c →
          fatValOnDisk (stepSt s c sec) x = fatValOnDisk s x := by
        intro x _ hxe hxc
        have hxb : x < 268435456 := by
          unfold FAT32_Cluster.EOC_MIN at hxe
          omega
        exact hs2 x hxb hxc
      obtain ⟨hceq, hcend⟩ := chain_congr s (stepSt s c sec) c hagree n
        (le32 sec (entOffOf s c) % 268435456) hcnot
      obtain ⟨A, B, P1, P2, P3, P4, P5, P6, P7, P8, P9, P10⟩ :=
        ih (stepSt s c sec) (le32 sec (entOffOf s c) % 268435456)
          hinit hs4 hss hs5 hwrites (hcend hre) (by rw [hceq]; exact hnd2)
      rw [hstep, hcl]
      refine ⟨?_, ?_, P1, P2, P3, P4, P5, P6, P7, P8, P9, P10⟩
      · intro x hx
        rcases List.mem_cons.mp hx with hxc | hxm
        · rw [hxc]
          have hbytes : ∀ k, k < 4 →
              ((freeChainLoop n (stepSt s c sec)
                  (le32 sec (entOffOf s c) % 268435456)).disk.readF
                  (fatLbaOf (stepSt s c sec) c)).map
                    (fun g => g (entOffOf (stepSt s c sec) c + k)) =
              ((stepSt s c sec).disk.readF (fatLbaOf (stepSt s c sec) c)).map
                    (fun g => g (entOffOf (stepSt s c sec) c + k)) := by
            intro k hk
            apply B
            intro y hy hyl
            rw [hceq] at hy
            have hyne : y ≠ c := fun he => hcnot (he ▸ hy)
            have hyl2 := chainListD_live s n (le32 sec (entOffOf s c) % 268435456) y hy
            have hyb : y < 268435456 := by
              have h := hyl2.2
              unfold FAT32_Cluster.EOC_MIN at h
              omega
            have hyl3 : fatLbaOf s y = fatLbaOf s c := hyl
            have hd := entRange_disjoint s y c hss hyb hcb hyne hyl3
            show entOffOf s c + k < entOffOf s y ∨ entOffOf s y + 4 ≤ entOffOf s c + k
            omega
          have hcongr := fatValOnDisk_congr (stepSt s c sec)
            (freeChainLoop n (stepSt s c sec) (le32 sec (entOffOf s c) % 268435456)) c
            P3 (by rw [P2]; exact hss.symm) hbytes
          rw [hcongr]
          exact hs1
        · rw [← hceq] at hxm
          exact A x hxm
      · intro lba off hcond
        have hc1 : ∀ y ∈ chainListD (stepSt s c sec) n
              (le32 sec (entOffOf s c) % 268435456),
            fatLbaOf (stepSt s c sec) y = lba →
            off < entOffOf (stepSt s c sec) y ∨ entOffOf (stepSt s c sec) y + 4 ≤ off := by
          intro y hy hyl
          rw [hceq] at hy
          exact hcond y (List.mem_cons_of_mem c hy) hyl
        have hfr1 := B lba off hc1
        have hfr2 := hs3 lba off (hcond c (List.mem_cons_self c _))
        exact hfr1.trans hfr2
    · have hloop : freeChainLoop (n + 1) s c = s := by
        rw [freeChainLoop_eq, if_neg hlive]
      have hcl : chainListD s (n + 1) c = [] := by
        rw [chainListD_eq, if_neg hlive]
      rw [hloop, hcl]
      refine ⟨?_, ?_, hinit, hss, rfl, rfl, rfl, rfl, rfl, rfl, hreads, hcoh⟩
      · intro x hx
        exact absurd hx (List.not_mem_nil x)
      · intro lba off _
        rfl

set_option maxRecDepth 40000 in
/-- C2: when the DELETE action of file_open reaches the matched directory
entry of a non-directory file (processLast with .DELETE), it returns
FILE_FOUND, afterwards every cluster of the file's on-disk cluster chain
has its FAT entry equal to FREE (0), and the directory sector is written
back with the erased marker 0xE5 as the entry's first name byte.  Stated
for any state whose chain walk terminates without repeating a cluster and
whose chain FAT sectors differ from the directory sector, and run end to
end on the concrete volume volC2: deleting B.BIN (chain 3 -> 4 -> 5 in
the stored FAT) through the full file_open pipeline returns FILE_FOUND,
frees the FAT entries of 3, 4 and 5 on the medium, and sets byte 0 of the
root directory sector to 0xE5. -/
theorem delete_frees_chain_C2 (fuel : Nat) (s : FAT32St) (sec : Sector) (lba i : Nat)
    (hinit : s.fsInit = true) (hcoh : cacheOK s) (hss : s.sector_size = 512)
    (hreads : ∀ l, (s.disk.readF l).isSome = true)
    (hwrites : ∀ l, s.disk.writeOk l = true)
    (hattr : (byteAt (entView sec i) 11).testBit 4 = false)
    (hend : chainReachesEnd s fuel (entFirstCluster (entView sec i)) = true)
    (hnodup : (chainListD s fuel (entFirstCluster (entView sec i))).Nodup)
    (hdisj : ∀ x ∈ chainListD s fuel (entFirstCluster (entView sec i)),
      fatLbaOf s x ≠ lba) :
    (processLast fuel s .DELETE sec lba i).1 = .FILE_FOUND ∧
    (∀ x ∈ chainListD s fuel (entFirstCluster (entView sec i)),
      fatValOnDisk (processLast fuel s .DELETE sec lba i).2 x = some 0) ∧
    (processLast fuel s .DELETE sec lba i).2.disk.readF lba =
      some (updF sec (32 * i) FAT_Config.FILE_ERASED) ∧
    byteAt (updF sec (32 * i) FAT_Config.FILE_ERASED) (32 * i) =
      FAT_Config.FILE_ERASED ∧
    chainListD volC2 20 3 = [3, 4, 5] ∧
    (file_open 20 volC2 pathB .DELETE).1 = .FILE_FOUND ∧
    fatValOnDisk (file_open 20 volC2 pathB .DELETE).2 3 = some 0 ∧
    fatValOnDisk (file_open 20 volC2 pathB .DELETE).2 4 = some 0 ∧
    fatValOnDisk (file_open 20 volC2 pathB .DELETE).2 5 = some 0 ∧
    ((file_open 20 volC2 pathB .DELETE).2.disk.readF 2).map (fun g => byteAt g 0) =
      some FAT_Config.FILE_ERASED := by
  obtain ⟨HA, HB, HP1, HP2, HP3, HP4, HP5, HP6, HP7, HP8, HP9, HP10⟩ :=
    freeChainLoop_spec fuel s (entFirstCluster (entView sec i))
      hinit hcoh hss hreads hwrites hend hnodup
  have hwok : (freeChainLoop fuel s (entFirstCluster (entView sec i))).disk.writeOk
      lba = true := by
    rw [HP8]
    exact hwrites lba
  have hcode : processLast fuel s .DELETE sec lba i =
      (if (byteAt (entView sec i) 11).testBit 4 = true then (.FILE_NOT_FOUND, s)
       else
        match Disk.store (freeChainLoop fuel s (entFirstCluster (entView sec i))).disk
            lba (updF sec (32 * i) FAT_Config.FILE_ERASED) with
        | (true, d) => (.FILE_FOUND,
            { freeChainLoop fuel s (entFirstCluster (entView sec i)) with disk := d })
        | (false, d) => (.FILE_NOT_FOUND,
            { freeChainLoop fuel s (entFirstCluster (entView sec i)) with disk := d })) :=
    rfl
  have hres : processLast fuel s .DELETE sec lba i =
      (.FILE_FOUND,
       { freeChainLoop fuel s (entFirstCluster (entView sec i)) with
          disk := storedD
            (freeChainLoop fuel s (entFirstCluster (entView sec i))).disk lba
            (updF sec (32 * i) FAT_Config.FILE_ERASED) }) := by
    rw [hcode, hattr, if_neg Bool.false_ne_true, Disk.store_ok _ _ _ hwok]
  refine ⟨?_, ?_, ?_, ?_, by decide, by decide, by decide, by decide,
    by decide, by decide⟩
  · rw [hres]
  · intro x hx
    have hfb : (processLast fuel s .DELETE sec lba i).2.fat_base =
        (freeChainLoop fuel s (entFirstCluster (entView sec i))).fat_base := by
      rw [hres]
    have hss2 : (processLast fuel s .DELETE sec lba i).2.sector_size =
        (freeChainLoop fuel s (entFirstCluster (entView sec i))).sector_size := by
      rw [hres]
    have hdd : (processLast fuel s .DELETE sec lba i).2.disk =
        storedD (freeChainLoop fuel s (entFirstCluster (entView sec i))).disk lba
          (updF sec (32 * i) FAT_Config.FILE_ERASED) := by
      rw [hres]
    have hlbax : fatLbaOf (freeChainLoop fuel s (entFirstCluster (entView sec i))) x =
        fatLbaOf s x := by
      unfold fatLbaOf
      rw [HP3, HP2, hss]
    have hpres := (fatVal_storedD
      (freeChainLoop fuel s (entFirstCluster (entView sec i))) lba
      (updF sec (32 * i) FAT_Config.FILE_ERASED) x
      (processLast fuel s .DELETE sec lba i).2 hdd hfb hss2).1
      (by rw [hlbax]; exact hdisj x hx)
    rw [hpres]
    exact HA x hx
  · have hdd : (processLast fuel s .DELETE sec lba i).2.disk =
        storedD (freeChainLoop fuel s (entFirstCluster (entView sec i))).disk lba
          (updF sec (32 * i) FAT_Config.FILE_ERASED) := by
      rw [hres]
    rw [hdd]
    unfold storedD
    simp only []
    first
    | rw [if_pos rfl]
    | rw [if_pos trivial]
  · unfold byteAt updF
    rw [if_pos rfl]
    decide

set_option maxRecDepth 40000 in
theorem delete_frees_chain_C2_witness :
    (processLast 20 volC2 .DELETE rootC2 2 0).1 = .FILE_FOUND ∧
    (∀ x ∈ chainListD volC2 20 (entFirstCluster (entView rootC2 0)),
      fatValOnDisk (processLast 20 volC2 .DELETE rootC2 2 0).2 x = some 0) ∧
    (processLast 20 volC2 .DELETE rootC2 2 0).2.disk.readF 2 =
      some (updF rootC2 (32 * 0) FAT_Config.FILE_ERASED) ∧
    byteAt (updF rootC2 (32 * 0) FAT_Config.FILE_ERASED) (32 * 0) =
      FAT_Config.FILE_ERASED ∧
    chainListD volC2 20 3 = [3, 4, 5] ∧
    (file_open 20 volC2 pathB .DELETE).1 = .FILE_FOUND ∧
    fatValOnDisk (file_open 20 volC2 pathB .DELETE).2 3 = some 0 ∧
    fatValOnDisk (file_open 20 volC2 pathB .DELETE).2 4 = some 0 ∧
    fatValOnDisk (file_open 20 volC2 pathB .DELETE).2 5 = some 0 ∧
    ((file_open 20 volC2 pathB .DELETE).2.disk.readF 2).map (fun g => byteAt g 0) =
      some FAT_Config.FILE_ERASED :=
  delete_frees_chain_C2 20 volC2 rootC2 2 0 rfl (fun h => Bool.noConfusion h) rfl
    (fun _ => rfl) (fun _ => rfl) (by decide) (by decide) (by decide) (by decide)

/-- The driver state carried by a scan outcome. -/
def scanOutSt : ScanOut → FAT32St
  | .cont s _ _ => s
  | .ret _ s => s
  | .desc s _ => s

theorem processLast_modify (fuel : Nat) (s : FAT32St) (sec : Sector) (lba i : Nat) :
    (processLast fuel s .MODIFY sec lba i).2.disk = s.disk := by
  show (if (byteAt (entView sec i) 11).testBit 4 = true then
      ((.FILE_NOT_FOUND, s) : FAT_ErrorCode × FAT32St)
    else (.FILE_FOUND, { s with write_handler :=
      ⟨lba, le32 (entView sec i) 28, entFirstCluster (entView sec i),
       entFirstCluster (entView sec i), 0, 0⟩ })).2.disk = s.disk
  by_cases h : (byteAt (entView sec i) 11).testBit 4 = true
  · rw [if_pos h]
  · rw [if_neg h]

theorem scanEnts_modify_disk (fuel : Nat) (name : List Nat) (il : Bool)
    (sec : Sector) (lba : Nat) : ∀ idxs (s : FAT32St) (lfnFlag : Bool)
    (lfnName : List Nat),
    (scanOutSt (scanEntsFind fuel .MODIFY name il sec lba s lfnFlag lfnName
      idxs)).disk = s.disk := by
  intro idxs
  induction idxs with
  | nil =>
    intro s f n
    rfl
  | cons i rest ih =>
    intro s f n
    unfold scanEntsFind
    simp only []
    by_cases h0 : byteAt (entView sec i) 0 = FAT_Config.FILE_CLEAR
    · rw [if_pos h0]
      rfl
    · rw [if_neg h0]
      by_cases h1 : byteAt (entView sec i) 0 = FAT_Config.FILE_ERASED
      · rw [if_pos h1]
        exact ih s f n
      · rw [if_neg h1]
        cases hty : (fat_filename_parse s.lfn_index (entView sec i) zeroSec).1 with
        | LongFileNameOK =>
          simp only []
          exact ih _ _ _
        | LongFileNameNOK =>
          simp only []
          exact ih _ _ _
        | F_Error =>
          simp only []
          exact ih _ _ _
        | F_File =>
          simp only []
          split <;>
            cases il with
            | true =>
              rw [if_pos rfl]
              split
              · exact processLast_modify fuel _ sec lba i
              · exact ih _ _ _
            | false =>
              rw [if_neg Bool.false_ne_true]
              split
              · split
                · rfl
                · exact ih _ _ _
              · exact ih _ _ _
        | F_Directory =>
          simp only []
          split <;>
            cases il with
            | true =>
              rw [if_pos rfl]
              split
              · exact processLast_modify fuel _ sec lba i
              · exact ih _ _ _
            | false =>
              rw [if_neg Bool.false_ne_true]
              split
              · split
                · rfl
                · exact ih _ _ _
              · exact ih _ _ _

theorem scanSectors_modify_disk (fuel : Nat) (name : List Nat) (il : Bool)
    (cluster : Nat) : ∀ secIdxs (s : FAT32St) (lfnFlag : Bool) (lfnName : List Nat),
    (scanOutSt (scanSectors fuel .MODIFY name il cluster s lfnFlag lfnName
      secIdxs)).disk = s.disk := by
  intro secIdxs
  induction secIdxs with
  | nil =>
    intro s f n
    rfl
  | cons si rest ih =>
    intro s f n
    unfold scanSectors
    simp only []
    cases hr : s.disk.readF (s.data_base + (cluster - 2) * s.cluster_size + si) with
    | none => rfl
    | some sec =>
      simp only []
      cases hout : scanEntsFind fuel .MODIFY name il sec
          (s.data_base + (cluster - 2) * s.cluster_size + si) s f n
          (List.range (s.sector_size / 32)) with
      | cont s1 f1 n1 =>
        simp only []
        have h1 := scanEnts_modify_disk fuel name il sec
          (s.data_base + (cluster - 2) * s.cluster_size + si)
          (List.range (s.sector_size / 32)) s f n
        rw [hout] at h1
        have h2 := ih s1 f1 n1
        rw [h2]
        exact h1
      | ret code s1 =>
        simp only []
        have h1 := scanEnts_modify_disk fuel name il sec
          (s.data_base + (cluster - 2) * s.cluster_size + si)
          (List.range (s.sector_size / 32)) s f n
        rw [hout] at h1
        exact h1
      | desc s1 d1 =>
        simp only []
        have h1 := scanEnts_modify_disk fuel name il sec
          (s.data_base + (cluster - 2) * s.cluster_size + si)
          (List.range (s.sector_size / 32)) s f n
        rw [hout] at h1
        exact h1

theorem scanChain_modify_disk (name : List Nat) (il : Bool) :
    ∀ fuelC (s : FAT32St) (cluster : Nat) (lfnFlag : Bool) (lfnName : List Nat),
    (scanOutSt (scanChain .MODIFY name il fuelC s cluster lfnFlag
      lfnName)).disk = s.disk := by
  intro fuelC
  induction fuelC with
  | zero =>
    intro s cl f n
    rfl
  | succ m ih =>
    intro s cl f n
    unfold scanChain
    simp only []
    by_cases hlive : 2 ≤ cl ∧ cl < FAT32_Cluster.EOC_MIN
    · rw [if_pos hlive]
      cases hout : scanSectors m .MODIFY name il cl s f n
          (List.range s.cluster_size) with
      | cont s1 f1 n1 =>
        simp only []
        have h1 := scanSectors_modify_disk m name il cl
          (List.range s.cluster_size) s f n
        rw [hout] at h1
        have hp := (fat_entry_read_pres s1 cl 0).1.1
        by_cases hterm : FAT32_Cluster.EOC_MIN ≤ (fat_entry s1 cl 0 false).1 ∨
            (fat_entry s1 cl 0 false).1 = 0
        · rw [if_pos hterm]
          show (fat_entry s1 cl 0 false).2.disk = s.disk
          rw [hp]
          exact h1
        · rw [if_neg hterm]
          have h2 := ih (fat_entry s1 cl 0 false).2 (fat_entry s1 cl 0 false).1 f1 n1
          rw [h2, hp]
          exact h1
      | ret code s1 =>
        simp only []
        have h1 := scanSectors_modify_disk m name il cl
          (List.range s.cluster_size) s f n
        rw [hout] at h1
        exact h1
      | desc s1 d1 =>
        simp only []
        have h1 := scanSectors_modify_disk m name il cl
          (List.range s.cluster_size) s f n
        rw [hout] at h1
        exact h1
    · rw [if_neg hlive]
      rfl

theorem walkParts_modify_disk : ∀ (parts : List (List Nat)) (fuel : Nat)
    (s : FAT32St) (dir : Nat),
    (walkParts fuel .MODIFY s parts dir).2.disk = s.disk := by
  intro parts
  induction parts with
  | nil =>
    intro fuel s dir
    rfl
  | cons name rest ih =>
    intro fuel s dir
    unfold walkParts
    simp only []
    cases hout : scanChain .MODIFY name (rest = []) fuel s dir false [] with
    | ret code s1 =>
      simp only []
      have h1 := scanChain_modify_disk name (rest = []) fuel s dir false []
      rw [hout] at h1
      exact h1
    | desc s1 d1 =>
      simp only []
      have h1 := scanChain_modify_disk name (rest = []) fuel s dir false []
      rw [hout] at h1
      rw [ih fuel s1 d1]
      exact h1
    | cont s1 f1 n1 =>
      simp only []
      have h1 := scanChain_modify_disk name (rest = []) fuel s dir false []
      rw [hout] at h1
      by_cases hrest : rest ≠ []
      · rw [if_pos hrest]
        exact h1
      · rw [if_neg hrest]
        exact h1

theorem file_open_modify_disk (fuel : Nat) (s : FAT32St) (path : List Nat) :
    (file_open fuel s path .MODIFY).2.disk = s.disk := by
  unfold file_open
  by_cases h1 : s.fsInit = false ∨ path = []
  · rw [if_pos h1]
  · rw [if_neg h1]
    simp only []
    by_cases h2 : tokenize (if path.headD 0 = 47 then path.tail else path) = []
    · rw [if_pos h2]
    · rw [if_neg h2]
      by_cases h3 : ((tokenize (if path.headD 0 = 47 then path.tail else
          path)).dropWhile (fun t => t = [46])).headD [] = [46, 46]
      · rw [if_pos h3]
      · rw [if_neg h3]
        by_cases h4 : (tokenize (if path.headD 0 = 47 then path.tail else
            path)).filter (fun t => t ≠ [46]) = []
        · rw [if_pos h4]
        · rw [if_neg h4]
          exact walkParts_modify_disk _ fuel s _

/-- The state produced by opening OLD.TXT for MODIFY on the rename test
volume. -/
def s1C8 : FAT32St := (file_open 20 volC8 pOLD .MODIFY).2

/-- 8.3 name bytes of NEW.TXT. -/
def dosNEW : List Nat := [78, 69, 87, 32, 32, 32, 32, 32, 84, 88, 84]

set_option maxRecDepth 40000 in
/-- C8: a successful rename_file only replaces the 11 name bytes of the
matched directory entry.  The MODIFY-mode file_open that locates the file
never writes the medium, so the final disk is the original disk with the
directory sector rewritten; every other LBA is untouched, bytes of that
sector outside [32 i, 32 i + 11) (attribute byte, first-cluster words,
size, timestamps, and all other entries) are unchanged, and the 11 name
bytes now hold the 8.3 form of the new name.  Run end to end on volC8:
renaming OLD.TXT to NEW.TXT succeeds, an old-name lookup then fails, a
new-name lookup finds the entry with its first cluster 3 and size 7
intact, and the attribute, first-cluster and size bytes on the medium are
unchanged. -/
theorem rename_frame_C8 (fuel : Nat) (s s1 : FAT32St) (sec : Sector)
    (dos11 : List Nat) (i : Nat) (old_name new_name : List Nat)
    (hinit : s.fsInit = true)
    (hdos : to_dos_8_3 (basenameOf new_name) = some dos11)
    (hopen : file_open fuel s old_name .MODIFY = (.FILE_FOUND, s1))
    (hdl : s1.write_handler.Dir_Entry ≠ 0)
    (hsec : s1.disk.readF s1.write_handler.Dir_Entry = some sec)
    (hcol : renameCollision (basenameOf new_name) sec
      (List.range (s1.sector_size / 32)) = false)
    (hfind : renameFindOld (basenameOf old_name) sec
      (List.range (s1.sector_size / 32)) = some i)
    (hwok : s1.disk.writeOk s1.write_handler.Dir_Entry = true) :
    rename_file fuel s old_name new_name =
      (true, { s1 with disk := (storedD s1.disk s1.write_handler.Dir_Entry
        (writeName11 sec i dos11)) }) ∧
    s1.disk = s.disk ∧
    (∀ l, l ≠ s1.write_handler.Dir_Entry →
      (rename_file fuel s old_name new_name).2.disk.readF l = s.disk.readF l) ∧
    (rename_file fuel s old_name new_name).2.disk.readF
      s1.write_handler.Dir_Entry = some (writeName11 sec i dos11) ∧
    (∀ j, ¬(32 * i ≤ j ∧ j < 32 * i + 11) → writeName11 sec i dos11 j = sec j) ∧
    (∀ k, k < 11 → writeName11 sec i dos11 (32 * i + k) = dos11.getD k 0 % 256) ∧
    (rename_file 20 volC8 pOLD pNEW).1 = true ∧
    (file_open 20 (rename_file 20 volC8 pOLD pNEW).2 pOLD .READ).1 =
      .FILE_NOT_FOUND ∧
    (file_open 20 (rename_file 20 volC8 pOLD pNEW).2 pNEW .READ).1 =
      .FILE_FOUND ∧
    (file_open 20 (rename_file 20 volC8 pOLD pNEW).2 pNEW .READ).2.read_handler =
      ⟨0, 7, 3, 0⟩ ∧
    ((rename_file 20 volC8 pOLD pNEW).2.disk.readF 2).map (fun g => g 11) =
      some 32 ∧
    ((rename_file 20 volC8 pOLD pNEW).2.disk.readF 2).map
      (fun g => entFirstCluster (entView g 0)) = some 3 ∧
    ((rename_file 20 volC8 pOLD pNEW).2.disk.readF 2).map
      (fun g => le32 (entView g 0) 28) = some 7 := by
  have hdisk1 : s1.disk = s.disk := by
    have h := file_open_modify_disk fuel s old_name
    rw [hopen] at h
    exact h
  have hres : rename_file fuel s old_name new_name =
      (true, { s1 with disk := (storedD s1.disk s1.write_handler.Dir_Entry
        (writeName11 sec i dos11)) }) := by
    unfold rename_file
    rw [hinit]
    rw [if_neg (by decide : ¬ (true = false))]
    simp only []
    rw [hdos]
    simp only []
    rw [hopen]
    simp only []
    rw [if_neg (fun hC => hC.1 rfl)]
    rw [if_neg hdl]
    rw [hsec]
    simp only []
    rw [hcol]
    rw [if_neg Bool.false_ne_true]
    rw [hfind]
    simp only []
    rw [Disk.store_ok _ _ _ hwok]
  have hd2 : (rename_file fuel s old_name new_name).2.disk =
      storedD s1.disk s1.write_handler.Dir_Entry (writeName11 sec i dos11) := by
    rw [hres]
  refine ⟨hres, hdisk1, ?_, ?_, ?_, ?_, by decide, by decide, by decide,
    by decide, by decide, by decide, by decide⟩
  · intro l hl
    rw [hd2]
    unfold storedD
    simp only []
    rw [if_neg hl, hdisk1]
  · rw [hd2]
    unfold storedD
    simp only []
    first
    | rw [if_pos rfl]
    | rw [if_pos trivial]
  · intro j hj
    simp only [writeName11]
    rw [if_neg hj]
  · intro k hk
    simp only [writeName11]
    rw [if_pos ⟨Nat.le_add_right _ _, by omega⟩]
    have hik : 32 * i + k - 32 * i = k := by omega
    rw [hik]

set_option maxRecDepth 40000 in
theorem rename_frame_C8_witness :
    rename_file 20 volC8 pOLD pNEW =
      (true, { s1C8 with disk := (storedD s1C8.disk s1C8.write_handler.Dir_Entry
        (writeName11 rootC8 0 dosNEW)) }) ∧
    s1C8.disk = volC8.disk ∧
    (∀ l, l ≠ s1C8.write_handler.Dir_Entry →
      (rename_file 20 volC8 pOLD pNEW).2.disk.readF l = volC8.disk.readF l) ∧
    (rename_file 20 volC8 pOLD pNEW).2.disk.readF
      s1C8.write_handler.Dir_Entry = some (writeName11 rootC8 0 dosNEW) ∧
    (∀ j, ¬(32 * 0 ≤ j ∧ j < 32 * 0 + 11) → writeName11 rootC8 0 dosNEW j = rootC8 j) ∧
    (∀ k, k < 11 → writeName11 rootC8 0 dosNEW (32 * 0 + k) = dosNEW.getD k 0 % 256) ∧
    (rename_file 20 volC8 pOLD pNEW).1 = true ∧
    (file_open 20 (rename_file 20 volC8 pOLD pNEW).2 pOLD .READ).1 =
      .FILE_NOT_FOUND ∧
    (file_open 20 (rename_file 20 volC8 pOLD pNEW).2 pNEW .READ).1 =
      .FILE_FOUND ∧
    (file_open 20 (rename_file 20 volC8 pOLD pNEW).2 pNEW .READ).2.read_handler =
      ⟨0, 7, 3, 0⟩ ∧
    ((rename_file 20 volC8 pOLD pNEW).2.disk.readF 2).map (fun g => g 11) =
      some 32 ∧
    ((rename_file 20 volC8 pOLD pNEW).2.disk.readF 2).map
      (fun g => entFirstCluster (entView g 0)) = some 3 ∧
    ((rename_file 20 volC8 pOLD pNEW).2.disk.readF 2).map
      (fun g => le32 (entView g 0) 28) = some 7 :=
  rename_frame_C8 20 volC8 s1C8 rootC8 dosNEW 0 pOLD pNEW rfl (by decide)
    (by
      have h1 : (file_open 20 volC8 pOLD .MODIFY).1 = FAT_ErrorCode.FILE_FOUND := by
        decide
      calc file_open 20 volC8 pOLD .MODIFY
          = ((file_open 20 volC8 pOLD .MODIFY).1,
             (file_open 20 volC8 pOLD .MODIFY).2) := rfl
        _ = (.FILE_FOUND, s1C8) := by
              rw [h1]
              rfl)
    (by decide) rfl (by decide) (by decide) (by decide)

/-- State after creating A.TXT, writing D1 and then D2 in two file_write
calls, and closing (the two-call round-trip attempt). -/
def c1two : FAT32St :=
  file_close (file_write 20 (file_write 20 (file_open 20 vol0 pathA .CREATE).2 D1)
    D2)

set_option maxRecDepth 40000 in
/-- C1 counterexample: writing D = D1 ++ D2 in two file_write calls of 10
bytes each records the size 20 but not the bytes: each call starts at a
fresh sector, so D2 lands in the next sector and reading the file back
yields D1 followed by ten zero bytes, not D1 ++ D2. -/
theorem file_write_roundtrip_cex_C1 :
    (file_open 20 vol0 pathA .CREATE).1 = .FILE_CREATE_OK ∧
    ((c1two.disk.readF 2).map (fun g => le32 (entView g 0) 28) =
      some (D1 ++ D2).length) ∧
    (file_open 20 c1two pathA .READ).1 = .FILE_FOUND ∧
    (file_read (file_open 20 c1two pathA .READ).2).1 = 20 ∧
    (file_read (file_open 20 c1two pathA .READ).2).2.1 =
      D1 ++ List.replicate 10 0 ∧
    (file_read (file_read (file_open 20 c1two pathA .READ).2).2.2).1 = 0 ∧
    ¬ (file_read (file_open 20 c1two pathA .READ).2).2.1 = D1 ++ D2 := by
  refine ⟨by decide, by decide, by decide, by decide, by decide, by decide,
    by decide⟩

theorem byteAt_writeBytes_lt (sec : Sector) (D : List Nat) (k : Nat)
    (hk : k < D.length) (hb : ∀ b ∈ D, b < 256) :
    byteAt (writeBytes sec D) k = D.getD k 0 := by
  unfold byteAt writeBytes
  rw [if_pos hk]
  have hmem : D.getD k 0 ∈ D := by
    rw [List.getD_eq_getElem D 0 hk]
    exact List.getElem_mem hk
  have hlt := hb _ hmem
  omega

theorem range_map_writeBytes (sec : Sector) (D : List Nat)
    (hb : ∀ b ∈ D, b < 256) :
    (List.range D.length).map (fun k => byteAt (writeBytes sec D) k) = D := by
  apply List.ext_getElem
  · rw [List.length_map, List.length_range]
  · intro i h1 h2
    rw [List.getElem_map, List.getElem_range]
    rw [byteAt_writeBytes_lt sec D i h2 hb]
    exact List.getD_eq_getElem D 0 h2

theorem byteAt_entView0 (g : Sector) (k : Nat) :
    byteAt (entView g 0) k = byteAt g k := by
  unfold byteAt entView
  have h : 32 * 0 + k = k := by omega
  rw [h]

theorem byteAt_writeLE32_frame (g : Sector) (a v k : Nat)
    (h : k < a ∨ a + 4 ≤ k) : byteAt (writeLE32 g a v) k = byteAt g k := by
  unfold byteAt
  rw [writeLE32_frame g a v k (by omega) (by omega) (by omega) (by omega)]

theorem parse_file_entry (li : Nat) (ent : Sector) (buf : Sector)
    (h0a : byteAt ent 0 ≠ FAT_Config.FILE_CLEAR)
    (h0b : byteAt ent 0 ≠ FAT_Config.FILE_ERASED)
    (h11 : byteAt ent 11 = 32) :
    (fat_filename_parse li ent buf).1 = .F_File ∧
    (fat_filename_parse li ent buf).2.1 = li := by
  unfold fat_filename_parse
  simp only []
  rw [if_pos h0a]
  rw [if_pos ⟨h0b, by rw [h11]; decide⟩]
  rw [if_neg (by rw [h11]; decide)]
  rw [if_neg (by rw [h11]; decide)]
  exact ⟨rfl, rfl⟩

theorem processLast_read_found (fuel : Nat) (t : FAT32St) (sec : Sector)
    (lba i : Nat) (h11 : (byteAt (entView sec i) 11).testBit 4 = false) :
    processLast fuel t .READ sec lba i =
      (.FILE_FOUND, { t with read_handler :=
        ⟨0, le32 (entView sec i) 28, entFirstCluster (entView sec i), 0⟩ }) := by
  show (if (byteAt (entView sec i) 11).testBit 4 = true then
      ((.FILE_NOT_FOUND, t) : FAT_ErrorCode × FAT32St)
    else (.FILE_FOUND, { t with read_handler :=
      ⟨0, le32 (entView sec i) 28, entFirstCluster (entView sec i), 0⟩ })) = _
  rw [h11, if_neg Bool.false_ne_true]

theorem compNameOf_congr (v w : Sector) (b : Bool)
    (h : ∀ k, k < 11 → byteAt v k = byteAt w k) :
    compNameOf v b = compNameOf w b := by
  have hbase : dosBaseChars v = dosBaseChars w := by
    unfold dosBaseChars
    have hm : (List.range 8).map (fun k => byteAt v k) =
        (List.range 8).map (fun k => byteAt w k) := by
      apply List.map_congr_left
      intro a ha
      exact h a (by
        have := List.mem_range.mp ha
        omega)
    rw [hm]
  have hext : dosExtChars v = dosExtChars w := by
    unfold dosExtChars
    rw [h 8 (by omega), h 9 (by omega), h 10 (by omega)]
  unfold compNameOf
  rw [hbase, hext, h 8 (by omega)]

theorem file_read_step (u : FAT32St) (dsec : Sector)
    (hinit : u.fsInit = true)
    (hS : 0 < u.read_handler.File_Size)
    (hfc2 : 2 ≤ u.read_handler.FAT_Entry)
    (hfc4 : u.read_handler.FAT_Entry < 4294967296)
    (hsm : u.data_base + (u.read_handler.FAT_Entry - 2) * u.cluster_size +
      u.read_handler.SectorOffset < 4294967296)
    (hread : u.disk.readF (u.data_base +
      (u.read_handler.FAT_Entry - 2) * u.cluster_size +
      u.read_handler.SectorOffset) = some dsec)
    (hnc : u.read_handler.SectorOffset + 1 < u.cluster_size) :
    file_read u = (min 512 u.read_handler.File_Size,
      (List.range (min 512 u.read_handler.File_Size)).map
        (fun i => byteAt dsec i),
      { u with read_handler := { u.read_handler with
          File_Size := u.read_handler.File_Size - min 512 u.read_handler.File_Size
          SectorOffset := u.read_handler.SectorOffset + 1 } }) := by
  have haddr : (u.data_base +
      (u.read_handler.FAT_Entry + 4294967296 - 2) % 4294967296 * u.cluster_size +
      u.read_handler.SectorOffset) % 4294967296 =
      u.data_base + (u.read_handler.FAT_Entry - 2) * u.cluster_size +
      u.read_handler.SectorOffset := by
    have h1 : (u.read_handler.FAT_Entry + 4294967296 - 2) % 4294967296 =
        u.read_handler.FAT_Entry - 2 := by omega
    rw [h1]
    omega
  have hbtr : (if u.read_handler.File_Size < FAT_Config.SECTOR_SIZE then
      u.read_handler.File_Size else FAT_Config.SECTOR_SIZE) =
      min 512 u.read_handler.File_Size := by
    unfold FAT_Config.SECTOR_SIZE
    split_ifs with h <;> omega
  unfold file_read
  rw [if_neg (by simp [hinit])]
  simp only []
  rw [if_neg (by omega)]
  rw [hbtr, haddr, hread]
  simp only []
  rw [if_neg (by omega)]

theorem file_read_eof (u : FAT32St) (hinit : u.fsInit = true)
    (hS0 : u.read_handler.File_Size = 0) : file_read u = (0, [], u) := by
  unfold file_read
  rw [if_neg (by simp [hinit])]
  simp only []
  rw [if_pos hS0]

theorem writeChunkLoop_nil (f : Nat) (t : FAT32St) :
    writeChunkLoop (f + 1) t [] = t := rfl

theorem sizeUpdateWrite_eq (t : FAT32St) (dl i : Nat) (secD : Sector)
    (hrd : t.disk.readF dl = some secD)
    (hfind : findSizeUpdIdx t.write_handler.BaseFatEntry secD
      (List.range (t.sector_size / 32)) = some i)
    (hwok : t.disk.writeOk dl = true) :
    sizeUpdateWrite t dl = { t with disk := (storedD t.disk dl
      (writeLE32 secD (32 * i + 28) t.write_handler.File_Size)) } := by
  unfold sizeUpdateWrite
  rw [hrd]
  simp only []
  rw [hfind]
  simp only []
  rw [Disk.store_ok _ _ _ hwok]

set_option maxHeartbeats 1000000 in
theorem write_once_eq (fuel : Nat) (s : FAT32St) (D : List Nat)
    (secDat secDir : Sector) (dl bc L i : Nat)
    (hinit : s.fsInit = true) (hss : s.sector_size = 512)
    (hcs : 2 ≤ s.cluster_size)
    (hwh : s.write_handler = ⟨dl, 0, bc, bc, 0, 0⟩)
    (hD1 : 0 < D.length) (hD2 : D.length ≤ 512)
    (hL : (s.data_base + (bc + 4294967296 - 2) % 4294967296 * s.cluster_size + 0) %
      4294967296 = L)
    (hrdD : s.disk.readF L = some secDat) (hwD : s.disk.writeOk L = true)
    (hne : dl ≠ L)
    (hrdDir : s.disk.readF dl = some secDir) (hwDir : s.disk.writeOk dl = true)
    (hfind : findSizeUpdIdx bc secDir (List.range (s.sector_size / 32)) = some i) :
    sizeUpdateWrite (writeChunkLoop (fuel + 2) s D) dl =
      { s with
          disk := (storedD (storedD s.disk L
            (writeBytes (if D.length = 512 then zeroSec else secDat) D)) dl
            (writeLE32 secDir (32 * i + 28) (D.length % 4294967296)))
          write_handler := ⟨dl, D.length % 4294967296, bc, bc, 0, 1⟩ } := by
  cases D with
  | nil => exact absurd hD1 (by simp)
  | cons d0 drest =>
    have hchunk : min (d0 :: drest).length s.sector_size = (d0 :: drest).length := by
      rw [hss]
      exact Nat.min_eq_left hD2
    have hloop : writeChunkLoop (fuel + 2) s (d0 :: drest) =
        { s with
            disk := storedD s.disk L
              (writeBytes (if (d0 :: drest).length = 512 then zeroSec else secDat)
                (d0 :: drest))
            write_handler :=
              ⟨dl, (0 + (d0 :: drest).length) % 4294967296, bc, bc, 0, 0 + 1⟩ } := by
      unfold writeChunkLoop
      simp only []
      rw [hwh]
      simp only []
      rw [hchunk, hL, List.take_length]
      by_cases hfull : (d0 :: drest).length = 512
      · rw [if_pos hfull]
        rw [if_neg (show ¬ ((d0 :: drest).length ≠ s.sector_size) from
          fun hcon => hcon (by rw [hss]; exact hfull))]
        rw [Disk.store_ok _ _ _ hwD]
        try simp only []
        rw [if_neg (by decide : ¬ (true = false))]
        try simp only []
        rw [if_neg (by omega)]
        rw [List.drop_length, writeChunkLoop_nil]
      · rw [if_neg hfull]
        rw [if_pos (show (d0 :: drest).length ≠ s.sector_size from
          by rw [hss]; exact hfull)]
        rw [hrdD]
        simp only []
        rw [Disk.store_ok _ _ _ hwD]
        try simp only []
        rw [if_neg (by decide : ¬ (true = false))]
        try simp only []
        rw [if_neg (by omega)]
        rw [List.drop_length, writeChunkLoop_nil]
    have hsu := sizeUpdateWrite_eq (writeChunkLoop (fuel + 2) s (d0 :: drest))
      dl i secDir
      (by rw [hloop]; simp only [storedD]; rw [if_neg hne]; exact hrdDir)
      (by rw [hloop]; exact hfind)
      (by rw [hloop]; exact hwDir)
    rw [hsu, hloop]
    simp only []
    rw [Nat.zero_add]

theorem findSizeUpdIdxClose_first (base : Nat) (g : Sector) (rest : List Nat)
    (h0a : byteAt (entView g 0) 0 ≠ FAT_Config.FILE_CLEAR)
    (h0b : byteAt (entView g 0) 0 ≠ FAT_Config.FILE_ERASED)
    (h11 : byteAt (entView g 0) 11 % 16 ≠ 15)
    (hfc : base ≠ 0 ∧ entFirstCluster (entView g 0) = base) :
    findSizeUpdIdxClose base g (0 :: rest) = some 0 := by
  unfold findSizeUpdIdxClose
  simp only []
  rw [if_neg h0a, if_neg h0b, if_neg h11, if_pos hfc]

theorem file_close_write_eq (t : FAT32St) (sec2 : Sector) (i : Nat)
    (hdl : t.write_handler.Dir_Entry ≠ 0)
    (hrd : t.disk.readF t.write_handler.Dir_Entry = some sec2)
    (hfind : findSizeUpdIdxClose t.write_handler.BaseFatEntry sec2
      (List.range (t.sector_size / 32)) = some i)
    (hwok : t.disk.writeOk t.write_handler.Dir_Entry = true)
    (hrh : t.read_handler.Dir_Entry = 0) :
    file_close t = { t with
      disk := (storedD t.disk t.write_handler.Dir_Entry
        (writeLE32 sec2 (32 * i + 28) t.write_handler.File_Size))
      write_handler := WriteHandler.init } := by
  have hupd : update_directory_entry_size t = { t with
      disk := (storedD t.disk t.write_handler.Dir_Entry
        (writeLE32 sec2 (32 * i + 28) t.write_handler.File_Size)) } := by
    unfold update_directory_entry_size
    rw [if_neg hdl, hrd]
    simp only []
    rw [hfind]
    simp only []
    rw [Disk.store_ok _ _ _ hwok]
  unfold file_close
  simp only []
  rw [if_pos hdl, hupd]
  rw [if_neg (fun h => h hrh)]

theorem scanEnts_first_match (fuel : Nat) (name : List Nat) (sec : Sector)
    (lba : Nat) (s : FAT32St) (rest : List Nat)
    (hb0a : byteAt (entView sec 0) 0 ≠ FAT_Config.FILE_CLEAR)
    (hb0b : byteAt (entView sec 0) 0 ≠ FAT_Config.FILE_ERASED)
    (hpr1 : (fat_filename_parse s.lfn_index (entView sec 0) zeroSec).1 = .F_File)
    (hiq : iequals (compNameOf (entView sec 0) false) name = true) :
    scanEntsFind fuel .READ name true sec lba s false [] (0 :: rest) =
      .ret (processLast fuel { s with lfn_index :=
          (fat_filename_parse s.lfn_index (entView sec 0) zeroSec).2.1 }
        .READ sec lba 0).1
        (processLast fuel { s with lfn_index :=
          (fat_filename_parse s.lfn_index (entView sec 0) zeroSec).2.1 }
        .READ sec lba 0).2 := by
  unfold scanEntsFind
  simp only []
  rw [if_neg hb0a, if_neg hb0b, hpr1]
  simp only []
  rw [if_neg (show ¬ ((false = true) ∧ ([] : List Nat) ≠ []) from
    fun h => Bool.noConfusion h.1)]
  first
  | rw [show decide (FileEntryType.F_File = FileEntryType.F_Directory) = false from
      rfl]
  | skip
  rw [if_pos hiq]
  first
  | rw [if_pos trivial]
  | rw [if_pos rfl]

theorem file_open_read_root (m : Nat) (s : FAT32St) (sec : Sector)
    (hinit : s.fsInit = true) (hss : s.sector_size = 512)
    (hcs : s.cluster_size = 2) (hdb : s.data_base = 2)
    (hcur : s.current_dir_cluster = 2)
    (hrd : s.disk.readF 2 = some sec)
    (hb0a : byteAt (entView sec 0) 0 ≠ FAT_Config.FILE_CLEAR)
    (hb0b : byteAt (entView sec 0) 0 ≠ FAT_Config.FILE_ERASED)
    (hpr1 : (fat_filename_parse s.lfn_index (entView sec 0) zeroSec).1 = .F_File)
    (hiq : iequals (compNameOf (entView sec 0) false)
      [65, 46, 84, 88, 84] = true)
    (h11 : (byteAt (entView sec 0) 11).testBit 4 = false) :
    file_open (m + 1) s pathA .READ =
      (.FILE_FOUND, { s with
        lfn_index := (fat_filename_parse s.lfn_index (entView sec 0) zeroSec).2.1
        read_handler := ⟨0, le32 (entView sec 0) 28,
          entFirstCluster (entView sec 0), 0⟩ }) := by
  unfold file_open
  rw [if_neg (show ¬ (s.fsInit = false ∨ pathA = []) from fun h => h.elim
    (fun h1 => by rw [hinit] at h1; exact Bool.noConfusion h1)
    (fun h2 => absurd h2 (by decide)))]
  simp only []
  rw [show (if pathA.headD 0 = 47 then pathA.tail else pathA) = pathA from
    by decide]
  rw [show tokenize pathA = [[65, 46, 84, 88, 84]] from by decide]
  rw [if_neg (show ¬ ([[65, 46, 84, 88, 84]] : List (List Nat)) = [] from
    by decide)]
  rw [if_neg (show ¬ ((([[65, 46, 84, 88, 84]] : List (List Nat)).dropWhile
    (fun t => t = [46])).headD [] = [46, 46]) from by decide)]
  rw [show ([[65, 46, 84, 88, 84]] : List (List Nat)).filter (fun t => t ≠ [46]) =
    [[65, 46, 84, 88, 84]] from by decide]
  rw [if_neg (show ¬ ([[65, 46, 84, 88, 84]] : List (List Nat)) = [] from
    by decide)]
  rw [if_neg (show ¬ (pathA.headD 0 = 47) from by decide)]
  rw [show (if 2 ≤ s.current_dir_cluster then s.current_dir_cluster
      else s.root_dir_first_cluster) = 2 from by
    rw [hcur]
    rw [if_pos (show (2 : Nat) ≤ 2 from by decide)]]
  unfold walkParts
  simp only []
  first
  | rw [show (decide True) = true from rfl]
  | rw [show (decide (([] : List (List Nat)) = [])) = true from rfl]
  | skip
  unfold scanChain
  simp only []
  rw [if_pos (show 2 ≤ 2 ∧ 2 < FAT32_Cluster.EOC_MIN from by decide)]
  rw [show List.range s.cluster_size = [0, 1] from by rw [hcs]; decide]
  unfold scanSectors
  simp only []
  rw [show s.data_base + (2 - 2) * s.cluster_size + 0 = 2 from by rw [hdb]; omega]
  rw [hrd]
  simp only []
  rw [show List.range (s.sector_size / 32) =
    0 :: [1, 2, 3, 4, 5, 6, 7, 8, 9, 10, 11, 12, 13, 14, 15] from by
      rw [hss]
      decide]
  rw [scanEnts_first_match m [65, 46, 84, 88, 84] sec 2 s
    [1, 2, 3, 4, 5, 6, 7, 8, 9, 10, 11, 12, 13, 14, 15] hb0a hb0b hpr1 hiq]
  simp only []
  rw [processLast_read_found m { s with lfn_index :=
      (fat_filename_parse s.lfn_index (entView sec 0) zeroSec).2.1 }
    sec 2 0 h11]

theorem entView0_frame28 (g : Sector) (v : Nat) :
    ∀ j, j < 28 → entView (writeLE32 g 28 v) 0 j = entView g 0 j := by
  intro j hj
  show writeLE32 g 28 v (32 * 0 + j) = g (32 * 0 + j)
  have h32 : 32 * 0 + j = j := by omega
  rw [h32]
  exact writeLE32_frame g 28 v j (by omega) (by omega) (by omega) (by omega)

theorem byteAt_entView0_frame28 (g : Sector) (v j : Nat) (hj : j < 28) :
    byteAt (entView (writeLE32 g 28 v) 0) j = byteAt (entView g 0) j := by
  unfold byteAt
  rw [entView0_frame28 g v j hj]

theorem entFirstCluster_frame28 (g : Sector) (v : Nat) :
    entFirstCluster (entView (writeLE32 g 28 v) 0) =
      entFirstCluster (entView g 0) := by
  unfold entFirstCluster
  rw [le16_congr (entView (writeLE32 g 28 v) 0) (entView g 0) 20
    (fun k hk => entView0_frame28 g v (20 + k) (by omega)),
    le16_congr (entView (writeLE32 g 28 v) 0) (entView g 0) 26
    (fun k hk => entView0_frame28 g v (26 + k) (by omega))]

theorem compNameOf_frame28 (g : Sector) (v : Nat) (b : Bool) :
    compNameOf (entView (writeLE32 g 28 v) 0) b = compNameOf (entView g 0) b :=
  compNameOf_congr _ _ b (fun k hk => byteAt_entView0_frame28 g v k (by omega))

theorem le32_entView0_28 (g : Sector) (v : Nat) :
    le32 (entView (writeLE32 g 28 v) 0) 28 = v % 4294967296 := by
  have h : le32 (entView (writeLE32 g 28 v) 0) 28 = le32 (writeLE32 g 28 v) 28 := by
    apply le32_congr
    intro k hk
    show entView (writeLE32 g 28 v) 0 (28 + k) = writeLE32 g 28 v (28 + k)
    unfold entView
    have h32 : 32 * 0 + (28 + k) = 28 + k := by omega
    rw [h32]
  rw [h, le32_writeLE32]

/-- Driver state after creating A.TXT on the empty volume. -/
def createdC1 : FAT32St := (file_open 20 vol0 pathA .CREATE).2

/-- State after the first-cluster allocation inside the first file_write
call on the freshly created file. -/
def sAC1 : FAT32St := (allocFirst createdC1 2).2

set_option maxRecDepth 40000 in
set_option maxHeartbeats 4000000 in
/-- C1 (amended): the round trip holds when the data is written by a
single file_write call.  For every byte string D with 0 < |D| <= 512
written by one file_write call to the file A.TXT created on the empty
volume: after file_close the on-disk directory entry size equals |D| and
the data sector holds the bytes of D; reopening the same path with
file_open READ succeeds with a read handler of size |D| at the allocated
cluster 3, the first file_read returns exactly the bytes of D, and the
next file_read returns 0 bytes. -/
theorem file_write_roundtrip_C1 (D : List Nat) (hD1 : 0 < D.length)
    (hD2 : D.length ≤ 512) (hb : ∀ b ∈ D, b < 256) :
    (file_open 20 vol0 pathA .CREATE).1 = .FILE_CREATE_OK ∧
    ((file_close (file_write 20 createdC1 D)).disk.readF 2).map
      (fun g => le32 (entView g 0) 28) = some D.length ∧
    (∀ k, k < D.length →
      ((file_close (file_write 20 createdC1 D)).disk.readF 4).map
        (fun g => byteAt g k) = some (D.getD k 0)) ∧
    (file_open 20 (file_close (file_write 20 createdC1 D)) pathA .READ).1 =
      .FILE_FOUND ∧
    (file_open 20 (file_close (file_write 20 createdC1 D))
      pathA .READ).2.read_handler = ⟨0, D.length, 3, 0⟩ ∧
    (file_read (file_open 20 (file_close (file_write 20 createdC1 D))
      pathA .READ).2).1 = D.length ∧
    (file_read (file_open 20 (file_close (file_write 20 createdC1 D))
      pathA .READ).2).2.1 = D ∧
    (file_read (file_read (file_open 20 (file_close (file_write 20 createdC1 D))
      pathA .READ).2).2.2).1 = 0 := by
  -- the created state and the first-cluster allocation are concrete
  have h1 : (allocFirst createdC1 2).1 = true := by decide
  have halloc : allocFirst createdC1 2 = (true, sAC1) := by
    calc allocFirst createdC1 2
        = ((allocFirst createdC1 2).1, (allocFirst createdC1 2).2) := rfl
      _ = (true, sAC1) := by
            rw [h1]
            rfl
  have hfw : file_write 20 createdC1 D =
      sizeUpdateWrite (writeChunkLoop 20 sAC1 D) 2 := by
    unfold file_write
    rw [if_neg (show ¬ (createdC1.fsInit = false ∨ D = []) from fun h => h.elim
      (fun hx => absurd hx (by decide))
      (fun hx => by
        rw [hx] at hD1
        exact absurd hD1 (by decide)))]
    simp only []
    rw [show createdC1.write_handler.Dir_Entry = 2 from by decide]
    rw [if_neg (show ¬ ((2 : Nat) = 0) from by decide)]
    rw [if_pos (show createdC1.write_handler.CurrentFatEntry < 2 from by decide)]
    rw [halloc]
    simp only []
    rw [if_neg (show ¬ (true = false) from by decide)]
  -- the original root directory sector and its decidable facts
  obtain ⟨secDir, hsecDir⟩ : ∃ g, sAC1.disk.readF 2 = some g := ⟨_, rfl⟩
  obtain ⟨secDat4, hsecDat4⟩ : ∃ g, sAC1.disk.readF 4 = some g := ⟨_, rfl⟩
  have hbv0 : byteAt (entView secDir 0) 0 = 65 := by
    have h : (sAC1.disk.readF 2).map (fun g => byteAt (entView g 0) 0) =
        some 65 := by decide
    rw [hsecDir] at h
    exact Option.some.inj h
  have hbv11 : byteAt (entView secDir 0) 11 = 32 := by
    have h : (sAC1.disk.readF 2).map (fun g => byteAt (entView g 0) 11) =
        some 32 := by decide
    rw [hsecDir] at h
    exact Option.some.inj h
  have hfc3 : entFirstCluster (entView secDir 0) = 3 := by
    have h : (sAC1.disk.readF 2).map (fun g => entFirstCluster (entView g 0)) =
        some 3 := by decide
    rw [hsecDir] at h
    exact Option.some.inj h
  have hiqDir : iequals (compNameOf (entView secDir 0) false)
      [65, 46, 84, 88, 84] = true := by
    have h : (sAC1.disk.readF 2).map (fun g =>
        iequals (compNameOf (entView g 0) false) [65, 46, 84, 88, 84]) =
        some true := by decide
    rw [hsecDir] at h
    exact Option.some.inj h
  have hfindDir : findSizeUpdIdx 3 secDir (List.range (sAC1.sector_size / 32)) =
      some 0 := by
    have h : (sAC1.disk.readF 2).map (fun g =>
        findSizeUpdIdx 3 g (List.range (sAC1.sector_size / 32))) =
        some (some 0) := by decide
    rw [hsecDir] at h
    exact Option.some.inj h
  -- one file_write call
  have hW := write_once_eq 18 sAC1 D secDat4 secDir 2 3 4 0
    (by decide) (by decide) (by decide) (by decide) hD1 hD2 (by decide)
    hsecDat4 (by decide) (by decide) hsecDir (by decide) hfindDir
  rw [show (18 + 2 : Nat) = 20 from by norm_num] at hW
  rw [show (32 * 0 + 28 : Nat) = 28 from by norm_num] at hW
  rw [Nat.mod_eq_of_lt (show D.length < 4294967296 from by omega)] at hW
  rw [hfw, hW]
  set T : FAT32St := { sAC1 with
      disk := (storedD (storedD sAC1.disk 4
        (writeBytes (if D.length = 512 then zeroSec else secDat4) D)) 2
        (writeLE32 secDir 28 D.length))
      write_handler := (⟨2, D.length, 3, 3, 0, 1⟩ : WriteHandler) } with hTdef
  -- closing updates the size again and resets the handler
  have hfcC : findSizeUpdIdxClose 3 (writeLE32 secDir 28 D.length)
      (List.range (512 / 32)) = some 0 := by
    rw [show List.range (512 / 32) =
      0 :: [1, 2, 3, 4, 5, 6, 7, 8, 9, 10, 11, 12, 13, 14, 15] from by decide]
    apply findSizeUpdIdxClose_first
    · rw [byteAt_entView0_frame28 _ _ 0 (by omega), hbv0]
      decide
    · rw [byteAt_entView0_frame28 _ _ 0 (by omega), hbv0]
      decide
    · rw [byteAt_entView0_frame28 _ _ 11 (by omega), hbv11]
      decide
    · refine ⟨by decide, ?_⟩
      rw [entFirstCluster_frame28, hfc3]
  have hclose := file_close_write_eq T (writeLE32 secDir 28 D.length) 0
    (show (2 : Nat) ≠ 0 from by decide)
    (by
      rw [hTdef]
      simp only [storedD]
      first
      | rw [if_pos rfl]
      | rw [if_pos trivial]
      | rfl)
    hfcC
    (show sAC1.disk.writeOk 2 = true from by decide)
    (show sAC1.read_handler.Dir_Entry = 0 from by decide)
  rw [show T.write_handler.Dir_Entry = 2 from rfl] at hclose
  rw [show T.write_handler.File_Size = D.length from rfl] at hclose
  rw [show (32 * 0 + 28 : Nat) = 28 from by norm_num] at hclose
  rw [hclose]
  set CL : FAT32St := { T with
      disk := storedD T.disk 2
        (writeLE32 (writeLE32 secDir 28 D.length) 28 D.length)
      write_handler := WriteHandler.init } with hCLdef
  -- sector facts of the closed state
  have hrdCL : CL.disk.readF 2 =
      some (writeLE32 (writeLE32 secDir 28 D.length) 28 D.length) := by
    rw [hCLdef]
    simp only [storedD]
    first
    | rw [if_pos rfl]
    | rw [if_pos trivial]
    | rfl
  have hrdCL4 : CL.disk.readF 4 =
      some (writeBytes (if D.length = 512 then zeroSec else secDat4) D) := by
    rw [hCLdef, hTdef]
    simp only [storedD]
    rw [if_neg (show ¬ ((4 : Nat) = 2) from by decide)]
    rw [if_neg (show ¬ ((4 : Nat) = 2) from by decide)]
    first
    | rw [if_pos rfl]
    | rw [if_pos trivial]
    | rfl
  -- byte facts of the twice-updated directory sector
  have hb0a : byteAt (entView (writeLE32 (writeLE32 secDir 28 D.length) 28
      D.length) 0) 0 ≠ FAT_Config.FILE_CLEAR := by
    rw [byteAt_entView0_frame28 _ _ 0 (by omega),
      byteAt_entView0_frame28 _ _ 0 (by omega), hbv0]
    decide
  have hb0b : byteAt (entView (writeLE32 (writeLE32 secDir 28 D.length) 28
      D.length) 0) 0 ≠ FAT_Config.FILE_ERASED := by
    rw [byteAt_entView0_frame28 _ _ 0 (by omega),
      byteAt_entView0_frame28 _ _ 0 (by omega), hbv0]
    decide
  have hb11v : byteAt (entView (writeLE32 (writeLE32 secDir 28 D.length) 28
      D.length) 0) 11 = 32 := by
    rw [byteAt_entView0_frame28 _ _ 11 (by omega),
      byteAt_entView0_frame28 _ _ 11 (by omega), hbv11]
  have hparse := parse_file_entry CL.lfn_index
    (entView (writeLE32 (writeLE32 secDir 28 D.length) 28 D.length) 0) zeroSec
    hb0a hb0b hb11v
  have hle32s3 : le32 (entView (writeLE32 (writeLE32 secDir 28 D.length) 28
      D.length) 0) 28 = D.length := by
    rw [le32_entView0_28]
    exact Nat.mod_eq_of_lt (by omega)
  have hfcs3 : entFirstCluster (entView (writeLE32 (writeLE32 secDir 28
      D.length) 28 D.length) 0) = 3 := by
    rw [entFirstCluster_frame28, entFirstCluster_frame28]
    exact hfc3
  -- reopen for read
  have hR := file_open_read_root 19 CL
    (writeLE32 (writeLE32 secDir 28 D.length) 28 D.length)
    (show sAC1.fsInit = true from by decide)
    (show sAC1.sector_size = 512 from by decide)
    (show sAC1.cluster_size = 2 from by decide)
    (show sAC1.data_base = 2 from by decide)
    (show sAC1.current_dir_cluster = 2 from by decide)
    hrdCL hb0a hb0b hparse.1
    (by
      rw [compNameOf_frame28, compNameOf_frame28]
      exact hiqDir)
    (by
      rw [hb11v]
      decide)
  rw [show (19 + 1 : Nat) = 20 from by norm_num] at hR
  rw [hparse.2, hle32s3, hfcs3] at hR
  rw [hR]
  -- the reopened state and the final reads
  have hRD := file_read_step ({ CL with
      lfn_index := CL.lfn_index
      read_handler := (⟨0, D.length, 3, 0⟩ : ReadHandler) })
    (writeBytes (if D.length = 512 then zeroSec else secDat4) D)
    (show sAC1.fsInit = true from by decide)
    hD1
    (show (2 : Nat) ≤ 3 from by decide)
    (show (3 : Nat) < 4294967296 from by decide)
    (show (2 + (3 - 2) * 2 + 0 : Nat) < 4294967296 from by decide)
    hrdCL4
    (show (0 + 1 : Nat) < 2 from by decide)
  rw [show ({ CL with
      lfn_index := CL.lfn_index
      read_handler := (⟨0, D.length, 3, 0⟩ : ReadHandler) } :
        FAT32St).read_handler.File_Size = D.length from rfl] at hRD
  rw [Nat.min_eq_right hD2] at hRD
  refine ⟨by decide, ?_, ?_, ?_, ?_, ?_, ?_, ?_⟩
  · rw [hrdCL]
    exact congrArg some hle32s3
  · intro k hk
    rw [hrdCL4]
    exact congrArg some (byteAt_writeBytes_lt _ D k hk hb)
  · rfl
  · rfl
  · show (file_read ({ CL with
        lfn_index := CL.lfn_index
        read_handler := (⟨0, D.length, 3, 0⟩ : ReadHandler) })).1 = D.length
    rw [hRD]
  · show (file_read ({ CL with
        lfn_index := CL.lfn_index
        read_handler := (⟨0, D.length, 3, 0⟩ : ReadHandler) })).2.1 = D
    rw [hRD]
    exact range_map_writeBytes _ D hb
  · show (file_read (file_read ({ CL with
        lfn_index := CL.lfn_index
        read_handler := (⟨0, D.length, 3, 0⟩ : ReadHandler) })).2.2).1 = 0
    rw [hRD]
    rw [file_read_eof]
    · exact (show sAC1.fsInit = true from by decide)
    · show D.length - D.length = 0
      omega

set_option maxRecDepth 40000 in
theorem file_write_roundtrip_C1_witness :
    (file_open 20 vol0 pathA .CREATE).1 = .FILE_CREATE_OK ∧
    ((file_close (file_write 20 createdC1 D1)).disk.readF 2).map
      (fun g => le32 (entView g 0) 28) = some D1.length ∧
    (∀ k, k < D1.length →
      ((file_close (file_write 20 createdC1 D1)).disk.readF 4).map
        (fun g => byteAt g k) = some (D1.getD k 0)) ∧
    (file_open 20 (file_close (file_write 20 createdC1 D1)) pathA .READ).1 =
      .FILE_FOUND ∧
    (file_open 20 (file_close (file_write 20 createdC1 D1))
      pathA .READ).2.read_handler = ⟨0, D1.length, 3, 0⟩ ∧
    (file_read (file_open 20 (file_close (file_write 20 createdC1 D1))
      pathA .READ).2).1 = D1.length ∧
    (file_read (file_open 20 (file_close (file_write 20 createdC1 D1))
      pathA .READ).2).2.1 = D1 ∧
    (file_read (file_read (file_open 20 (file_close (file_write 20 createdC1 D1))
      pathA .READ).2).2.2).1 = 0 :=
  file_write_roundtrip_C1 D1 (by decide) (by decide) (by decide)
